import Mathlib

/-!
# TutorialCpp_NLP: the Ipopt coding-exercise problem adapter

A shallow embedding of `Ipopt/tutorial/CodingExercise/Cpp/3-solution/TutorialCpp_nlp.cpp`
and the properties of its callbacks.

Conventions of the embedding.

* `Number` (printed with `%e` by `finalize_solution`) is read as an arbitrary field `α`;
  the theorems instantiate it with `ℝ`.  `cos` from `<cmath>` is a parameter of `eval_g`,
  instantiated with `Real.cos`.  All definitions stay executable (for instance over `ℚ`).
* `Index` (printed with `%d`) is the solver's `int`, 32 bits wide.  An `Index` value is an
  integer; the arithmetic of `get_nlp_info`, whose results are handed to the solver, wraps at
  32 bits (`Ipopt.wrap`).  Loop counters and subscripts stay below the length of the array
  they index, or the access is out of range.
* A C array is a `List`; a subscript outside the list is undefined behaviour in C++ and is the
  `none` result here.  Output arrays are passed in and returned.
* A `for (Index i = 0; i < n; i++)` loop is `forLoop body n.toNat 0`.
* A failing `assert` aborts the program: the call has no result (`none`).
* Every callback also has a state-passing form (suffix `_st`), the member function as a map on
  the object `*this`; it is proved to hand back the object it was called on, with the results
  of the plain form.  The solver drives the adapter through `Callback` values:
  `TutorialCpp_NLP.step` is the object after one call, `TutorialCpp_NLP.run` after a sequence.
* `ampl_constr` is the constraint of the AMPL model quoted in the header of the source file; it
  is what `eval_g` is compared with.
-/

namespace Ipopt

/-- The solver's index type `Index`, a signed 32-bit integer; its values are integers. -/
abbrev Index := Int

/-- The value an `Index` holds after a computation whose exact result is `z`: the result
modulo `2^32`, in the range `-2^31 .. 2^31-1`. -/
def wrap (z : Int) : Int := (z + 2147483648) % 4294967296 - 2147483648

/-- Modelled from the spec: the enumeration `TNLP::IndexStyleEnum` is declared in a header of
the solver that is not among the sources.  `C_STYLE` is the 0-based convention the adapter
announces ("indexing convention = 0-based"); `FORTRAN_STYLE` is the solver's other, 1-based
convention. -/
inductive IndexStyleEnum where
  | C_STYLE
  | FORTRAN_STYLE
  deriving DecidableEq, Repr

/-- The index of the first row or column under an indexing convention. -/
def IndexStyleEnum.base : IndexStyleEnum → Index
  | .C_STYLE => 0
  | .FORTRAN_STYLE => 1

/-- The read `p[i]`: `none` when `i` is outside the array. -/
def rd {β : Type} (p : List β) (i : Index) : Option β :=
  if 0 ≤ i then p[i.toNat]? else none

/-- The write `p[i] = v`: `none` when `i` is outside the array. -/
def wr {β : Type} (p : List β) (i : Index) (v : β) : Option (List β) :=
  if 0 ≤ i ∧ i.toNat < p.length then some (p.set i.toNat v) else none

/-- The loop `for (Index i = i0; ...; i++) body`, run for `k` more iterations on state `s`.
With `k = n.toNat` and `i0 = 0` it is `for (Index i = 0; i < n; i++) body`. -/
def forLoop {σ : Type} (body : Index → σ → Option σ) : Nat → Index → σ → Option σ
  | 0, _, s => some s
  | k + 1, i, s => (body i s).bind (forLoop body k (i + 1))

end Ipopt

open Ipopt

/-- The adapter object: the members `N_` and `a_` of class `TutorialCpp_NLP`. -/
structure TutorialCpp_NLP (α : Type) where
  N_ : Index
  a_ : List α

/-- The values `get_nlp_info` returns: its `bool` result and its five reference parameters. -/
structure NlpInfo where
  ret : Bool
  n : Index
  m : Index
  nnz_jac_g : Index
  nnz_h_lag : Index
  index_style : IndexStyleEnum
  deriving DecidableEq, Repr

section Callbacks

variable {α : Type} [Field α]

/-- The constructor `TutorialCpp_NLP::TutorialCpp_NLP(Index N, const Number* a)` (named `ctor`
here, the class name being taken by the structure).
`new Number[N_-2]` has no defined result for a negative length; the fresh array is
indeterminate and modelled as zeros, which the copy loop overwrites entry by entry. -/
def TutorialCpp_NLP.ctor (N : Index) (a : List α) : Option (TutorialCpp_NLP α) :=
  let N_ := N
  if N_ - 2 < 0 then none
  else
    let a_ : List α := List.replicate (N_ - 2).toNat 0
    (forLoop (fun i a_ => (rd a i).bind fun v => wr a_ i v) (N_ - 2).toNat 0 a_).map
      fun a_ => { N_ := N_, a_ := a_ }

/-- The callback `get_nlp_info`.  Each arithmetic result is an `Index`. -/
def TutorialCpp_NLP.get_nlp_info (t : TutorialCpp_NLP α) : NlpInfo :=
  let n := t.N_
  let m := wrap (t.N_ - 2)
  let nnz_jac_g := wrap (n * m)
  let nnz_h_lag := wrap (n + wrap (n - 2))
  { ret := true, n := n, m := m, nnz_jac_g := nnz_jac_g, nnz_h_lag := nnz_h_lag,
    index_style := IndexStyleEnum.C_STYLE }

/-- The callback `get_bounds_info`: the `bool` result and the arrays `x_l`, `x_u`, `g_l`, `g_u`.
In `g_l[j] = g_u[j] = 0.` the entry of `g_u` is assigned first and its value then goes to `g_l`. -/
def TutorialCpp_NLP.get_bounds_info (_t : TutorialCpp_NLP α) (n : Index) (x_l x_u : List α)
    (m : Index) (g_l g_u : List α) : Option (Bool × List α × List α × List α × List α) :=
  (forLoop (fun i x_l => wr x_l i (-1.5)) n.toNat 0 x_l).bind fun x_l =>
  (forLoop (fun i x_u => wr x_u i 0) n.toNat 0 x_u).bind fun x_u =>
  (forLoop (fun j (s : List α × List α) =>
        (wr s.2 j 0).bind fun g_u =>
        (wr s.1 j 0).bind fun g_l =>
        some (g_l, g_u))
      m.toNat 0 (g_l, g_u)).map
    fun s => (true, x_l, x_u, s.1, s.2)

/-- The callback `get_starting_point`: the `bool` result and the arrays `x`, `z_L`, `z_U`,
`lambda`.  A failing `assert` aborts the program: the call has no result. -/
def TutorialCpp_NLP.get_starting_point (_t : TutorialCpp_NLP α) (n : Index) (init_x : Bool)
    (x : List α) (init_z : Bool) (z_L z_U : List α) (_m : Index) (init_lambda : Bool)
    (lambda : List α) : Option (Bool × List α × List α × List α × List α) :=
  if init_x == true ∧ init_z == false ∧ init_lambda == false then
    (forLoop (fun i x => wr x i (-0.5)) n.toNat 0 x).map
      fun x => (true, x, z_L, z_U, lambda)
  else none

/-- The callback `eval_f`: the `bool` result and `obj_value`. -/
def TutorialCpp_NLP.eval_f (_t : TutorialCpp_NLP α) (n : Index) (x : List α) (_new_x : Bool) :
    Option (Bool × α) :=
  let obj_value : α := 0
  (forLoop (fun i obj_value => (rd x i).map fun xi => obj_value + (xi - 1) * (xi - 1))
      n.toNat 0 obj_value).map
    fun obj_value => (true, obj_value)

/-- The callback `eval_grad_f`: the `bool` result and the array `grad_f`. -/
def TutorialCpp_NLP.eval_grad_f (_t : TutorialCpp_NLP α) (n : Index) (x : List α)
    (_new_x : Bool) (grad_f : List α) : Option (Bool × List α) :=
  (forLoop (fun i grad_f => (rd x i).bind fun xi => wr grad_f i (2 * (xi - 1)))
      n.toNat 0 grad_f).map
    fun grad_f => (true, grad_f)

/-- The callback `eval_g`: the `bool` result and the array `g`.  The subscripts are evaluated
in the order of the source expression; any of them out of range gives `none`. -/
def TutorialCpp_NLP.eval_g (cos : α → α) (t : TutorialCpp_NLP α) (_n : Index) (x : List α)
    (_new_x : Bool) (m : Index) (g : List α) : Option (Bool × List α) :=
  (forLoop (fun j g =>
        (rd x (j + 1)).bind fun x1 =>
        (rd t.a_ j).bind fun aj =>
        (rd x (j + 2)).bind fun x2 =>
        (rd x j).bind fun x0 =>
        wr g j ((x1 * x1 + 1.5 * x1 - aj) * cos x2 - x0))
      m.toNat 0 g).map
    fun g => (true, g)

/-- The callback `eval_jac_g`: the `bool` result and the arrays `iRow`, `jCol`, `values`.
`values == NULL` is `values = none`.  The loop state is `(inz, iRow, jCol)`. -/
def TutorialCpp_NLP.eval_jac_g (_t : TutorialCpp_NLP α) (n : Index) (_x : List α)
    (_new_x : Bool) (m : Index) (_nele_jac : Index) (iRow jCol : List Index)
    (values : Option (List α)) : Option (Bool × List Index × List Index × Option (List α)) :=
  match values with
  | none =>
    let inz : Index := 0
    (forLoop (fun i s =>
          forLoop (fun j (s : Index × List Index × List Index) =>
              (wr s.2.1 s.1 i).bind fun iRow =>
              (wr s.2.2 s.1 j).bind fun jCol =>
              some (s.1 + 1, iRow, jCol))
            n.toNat 0 s)
        m.toNat 0 (inz, iRow, jCol)).map
      fun s => (true, s.2.1, s.2.2, none)
  | some values => some (false, iRow, jCol, some values)

/-- The callback `eval_h`: the `bool` result and the arrays `iRow`, `jCol`, `values`.
The body returns `false` in its first statement; what follows it is never executed. -/
def TutorialCpp_NLP.eval_h (_t : TutorialCpp_NLP α) (_n : Index) (_x : List α) (_new_x : Bool)
    (_obj_factor : α) (_m : Index) (_lambda : List α) (_new_lambda : Bool)
    (_nele_hess : Index) (iRow jCol : List Index) (values : Option (List α)) :
    Option (Bool × List Index × List Index × Option (List α)) :=
  some (false, iRow, jCol, values)

/-- A line that `finalize_solution` prints with a value: `x[i] = v`, `z_L[i] = v`,
`z_U[i] = v` or `f(x*) = v`.  The headings it prints carry no data and are left out. -/
inductive ConsoleLine (α : Type) where
  | x (i : Index) (v : α)
  | z_L (i : Index) (v : α)
  | z_U (i : Index) (v : α)
  | obj (v : α)

/-- The callback `finalize_solution`: the lines it prints, in order.  Its parameters `status`,
`ip_data` and `ip_cq` are solver objects the body never touches; they are left out. -/
def TutorialCpp_NLP.finalize_solution (_t : TutorialCpp_NLP α) (n : Index) (x z_L z_U : List α)
    (_m : Index) (_g _lambda : List α) (obj_value : α) : Option (List (ConsoleLine α)) :=
  (forLoop (fun i out => (rd x i).map fun v => out ++ [ConsoleLine.x i v])
      n.toNat 0 []).bind fun out =>
  (forLoop (fun i out => (rd z_L i).map fun v => out ++ [ConsoleLine.z_L i v])
      n.toNat 0 out).bind fun out =>
  (forLoop (fun i out => (rd z_U i).map fun v => out ++ [ConsoleLine.z_U i v])
      n.toNat 0 out).map fun out =>
  out ++ [ConsoleLine.obj obj_value]

/-- The callback `get_nlp_info` in state-passing form: the member function as a map from the
object `*this` before the call to the object after it, together with the values returned.
Every statement hands the object on; a statement assigning to a member would change it. -/
def TutorialCpp_NLP.get_nlp_info_st (this : TutorialCpp_NLP α) : TutorialCpp_NLP α × NlpInfo :=
  let n := this.N_
  let m := wrap (this.N_ - 2)
  let nnz_jac_g := wrap (n * m)
  let nnz_h_lag := wrap (n + wrap (n - 2))
  (this, { ret := true, n := n, m := m, nnz_jac_g := nnz_jac_g, nnz_h_lag := nnz_h_lag,
           index_style := IndexStyleEnum.C_STYLE })

/-- The callback `get_bounds_info` with the object threaded through its statements. -/
def TutorialCpp_NLP.get_bounds_info_st (this : TutorialCpp_NLP α) (n : Index) (x_l x_u : List α)
    (m : Index) (g_l g_u : List α) :
    Option (TutorialCpp_NLP α × Bool × List α × List α × List α × List α) :=
  (forLoop (fun i (s : TutorialCpp_NLP α × List α) =>
        (wr s.2 i (-1.5)).map fun x_l => (s.1, x_l))
      n.toNat 0 (this, x_l)).bind fun s1 =>
  (forLoop (fun i (s : TutorialCpp_NLP α × List α) =>
        (wr s.2 i 0).map fun x_u => (s.1, x_u))
      n.toNat 0 (s1.1, x_u)).bind fun s2 =>
  (forLoop (fun j (s : TutorialCpp_NLP α × List α × List α) =>
        (wr s.2.2 j 0).bind fun g_u =>
        (wr s.2.1 j 0).bind fun g_l =>
        some (s.1, g_l, g_u))
      m.toNat 0 (s2.1, g_l, g_u)).map
    fun s3 => (s3.1, true, s1.2, s2.2, s3.2.1, s3.2.2)

/-- The callback `get_starting_point` with the object threaded through its statements. -/
def TutorialCpp_NLP.get_starting_point_st (this : TutorialCpp_NLP α) (n : Index)
    (init_x : Bool) (x : List α) (init_z : Bool) (z_L z_U : List α) (_m : Index)
    (init_lambda : Bool) (lambda : List α) :
    Option (TutorialCpp_NLP α × Bool × List α × List α × List α × List α) :=
  if init_x == true ∧ init_z == false ∧ init_lambda == false then
    (forLoop (fun i (s : TutorialCpp_NLP α × List α) =>
          (wr s.2 i (-0.5)).map fun x => (s.1, x))
        n.toNat 0 (this, x)).map
      fun s => (s.1, true, s.2, z_L, z_U, lambda)
  else none

/-- The callback `eval_f` with the object threaded through its statements. -/
def TutorialCpp_NLP.eval_f_st (this : TutorialCpp_NLP α) (n : Index) (x : List α)
    (_new_x : Bool) : Option (TutorialCpp_NLP α × Bool × α) :=
  let obj_value : α := 0
  (forLoop (fun i (s : TutorialCpp_NLP α × α) =>
        (rd x i).map fun xi => (s.1, s.2 + (xi - 1) * (xi - 1)))
      n.toNat 0 (this, obj_value)).map
    fun s => (s.1, true, s.2)

/-- The callback `eval_grad_f` with the object threaded through its statements. -/
def TutorialCpp_NLP.eval_grad_f_st (this : TutorialCpp_NLP α) (n : Index) (x : List α)
    (_new_x : Bool) (grad_f : List α) : Option (TutorialCpp_NLP α × Bool × List α) :=
  (forLoop (fun i (s : TutorialCpp_NLP α × List α) =>
        (rd x i).bind fun xi =>
        (wr s.2 i (2 * (xi - 1))).map fun grad_f => (s.1, grad_f))
      n.toNat 0 (this, grad_f)).map
    fun s => (s.1, true, s.2)

/-- The callback `eval_g` with the object threaded through its statements; `a_[j]` is read from
the object of the current iteration. -/
def TutorialCpp_NLP.eval_g_st (cos : α → α) (this : TutorialCpp_NLP α) (_n : Index)
    (x : List α) (_new_x : Bool) (m : Index) (g : List α) :
    Option (TutorialCpp_NLP α × Bool × List α) :=
  (forLoop (fun j (s : TutorialCpp_NLP α × List α) =>
        (rd x (j + 1)).bind fun x1 =>
        (rd s.1.a_ j).bind fun aj =>
        (rd x (j + 2)).bind fun x2 =>
        (rd x j).bind fun x0 =>
        (wr s.2 j ((x1 * x1 + 1.5 * x1 - aj) * cos x2 - x0)).map fun g => (s.1, g))
      m.toNat 0 (this, g)).map
    fun s => (s.1, true, s.2)

/-- The callback `eval_jac_g` with the object threaded through its statements. -/
def TutorialCpp_NLP.eval_jac_g_st (this : TutorialCpp_NLP α) (n : Index) (_x : List α)
    (_new_x : Bool) (m : Index) (_nele_jac : Index) (iRow jCol : List Index)
    (values : Option (List α)) :
    Option (TutorialCpp_NLP α × Bool × List Index × List Index × Option (List α)) :=
  match values with
  | none =>
    let inz : Index := 0
    (forLoop (fun i s =>
          forLoop (fun j (s : TutorialCpp_NLP α × Index × List Index × List Index) =>
              (wr s.2.2.1 s.2.1 i).bind fun iRow =>
              (wr s.2.2.2 s.2.1 j).bind fun jCol =>
              some (s.1, s.2.1 + 1, iRow, jCol))
            n.toNat 0 s)
        m.toNat 0 (this, inz, iRow, jCol)).map
      fun s => (s.1, true, s.2.2.1, s.2.2.2, none)
  | some values => some (this, false, iRow, jCol, some values)

/-- The callback `eval_h` with the object threaded through its statements. -/
def TutorialCpp_NLP.eval_h_st (this : TutorialCpp_NLP α) (_n : Index) (_x : List α)
    (_new_x : Bool) (_obj_factor : α) (_m : Index) (_lambda : List α) (_new_lambda : Bool)
    (_nele_hess : Index) (iRow jCol : List Index) (values : Option (List α)) :
    Option (TutorialCpp_NLP α × Bool × List Index × List Index × Option (List α)) :=
  some (this, false, iRow, jCol, values)

/-- The callback `finalize_solution` with the object threaded through its statements. -/
def TutorialCpp_NLP.finalize_solution_st (this : TutorialCpp_NLP α) (n : Index)
    (x z_L z_U : List α) (_m : Index) (_g _lambda : List α) (obj_value : α) :
    Option (TutorialCpp_NLP α × List (ConsoleLine α)) :=
  (forLoop (fun i (s : TutorialCpp_NLP α × List (ConsoleLine α)) =>
        (rd x i).map fun v => (s.1, s.2 ++ [ConsoleLine.x i v]))
      n.toNat 0 (this, [])).bind fun s =>
  (forLoop (fun i (s : TutorialCpp_NLP α × List (ConsoleLine α)) =>
        (rd z_L i).map fun v => (s.1, s.2 ++ [ConsoleLine.z_L i v]))
      n.toNat 0 s).bind fun s =>
  (forLoop (fun i (s : TutorialCpp_NLP α × List (ConsoleLine α)) =>
        (rd z_U i).map fun v => (s.1, s.2 ++ [ConsoleLine.z_U i v]))
      n.toNat 0 s).map fun s =>
  (s.1, s.2 ++ [ConsoleLine.obj obj_value])

/-- A call of one of the callbacks by the solver, with the arguments it passes. -/
inductive Callback (α : Type) where
  | get_nlp_info
  | get_bounds_info (n : Index) (x_l x_u : List α) (m : Index) (g_l g_u : List α)
  | get_starting_point (n : Index) (init_x : Bool) (x : List α) (init_z : Bool)
      (z_L z_U : List α) (m : Index) (init_lambda : Bool) (lambda : List α)
  | eval_f (n : Index) (x : List α) (new_x : Bool)
  | eval_grad_f (n : Index) (x : List α) (new_x : Bool) (grad_f : List α)
  | eval_g (n : Index) (x : List α) (new_x : Bool) (m : Index) (g : List α)
  | eval_jac_g (n : Index) (x : List α) (new_x : Bool) (m : Index) (nele_jac : Index)
      (iRow jCol : List Index) (values : Option (List α))
  | eval_h (n : Index) (x : List α) (new_x : Bool) (obj_factor : α) (m : Index)
      (lambda : List α) (new_lambda : Bool) (nele_hess : Index) (iRow jCol : List Index)
      (values : Option (List α))
  | finalize_solution (n : Index) (x z_L z_U : List α) (m : Index) (g lambda : List α)
      (obj_value : α)

/-- The adapter object after one callback: the object that the state-passing form of the
callback hands back.  A call without a result (a subscript out of range, a failing `assert`)
has no successor state. -/
def TutorialCpp_NLP.step (cos : α → α) (this : TutorialCpp_NLP α) :
    Callback α → Option (TutorialCpp_NLP α)
  | .get_nlp_info => some this.get_nlp_info_st.1
  | .get_bounds_info n x_l x_u m g_l g_u =>
    (this.get_bounds_info_st n x_l x_u m g_l g_u).map Prod.fst
  | .get_starting_point n init_x x init_z z_L z_U m init_lambda lambda =>
    (this.get_starting_point_st n init_x x init_z z_L z_U m init_lambda lambda).map Prod.fst
  | .eval_f n x new_x => (this.eval_f_st n x new_x).map Prod.fst
  | .eval_grad_f n x new_x grad_f => (this.eval_grad_f_st n x new_x grad_f).map Prod.fst
  | .eval_g n x new_x m g => (this.eval_g_st cos n x new_x m g).map Prod.fst
  | .eval_jac_g n x new_x m nele_jac iRow jCol values =>
    (this.eval_jac_g_st n x new_x m nele_jac iRow jCol values).map Prod.fst
  | .eval_h n x new_x obj_factor m lambda new_lambda nele_hess iRow jCol values =>
    (this.eval_h_st n x new_x obj_factor m lambda new_lambda nele_hess iRow jCol values).map
      Prod.fst
  | .finalize_solution n x z_L z_U m g lambda obj_value =>
    (this.finalize_solution_st n x z_L z_U m g lambda obj_value).map Prod.fst

/-- The adapter object after a sequence of callbacks, in order. -/
def TutorialCpp_NLP.run (cos : α → α) :
    TutorialCpp_NLP α → List (Callback α) → Option (TutorialCpp_NLP α)
  | t, [] => some t
  | t, c :: cs => (t.step cos c).bind fun t' => TutorialCpp_NLP.run cos t' cs

/-- The entry `g[j]` after `eval_g`, for the adapter constructed from `N` and `a` and called
with `n = N` and `m = N-2` on a fresh output array of `N-2` entries. -/
def TutorialCpp_NLP.g_entry (cos : α → α) (N : Index) (a x : List α) (j : Nat) : Option α :=
  (TutorialCpp_NLP.ctor N a).bind fun t =>
  (t.eval_g cos N x true (N - 2) (List.replicate (N - 2).toNat 0)).bind fun r => r.2[j]?

/-- The body of constraint `constr[i]` of the AMPL model in the header of the source file,
`(x[i]^2+1.5*x[i]-i/n)*cos(x[i+1]) - x[i-1]`, over the 1-based variables `X 1, ..., X n`. -/
def ampl_constr (cos : α → α) (n : Nat) (X : Nat → α) (i : Nat) : α :=
  (X i ^ 2 + 1.5 * X i - (i : α) / (n : α)) * cos (X (i + 1)) - X (i - 1)

/-- The state of the structure loops of `eval_jac_g` after `c` entries have been written:
`inz = c`, the first `c` entries enumerate the dense pattern row-major, the rest is untouched. -/
def TutorialCpp_NLP.jacFilled (n : Nat) (iRow jCol : List Index) (c : Nat)
    (s : Index × List Index × List Index) : Prop :=
  s.1 = (c : Int) ∧ s.2.1.length = iRow.length ∧ s.2.2.length = jCol.length ∧
  (∀ k, k < c → s.2.1[k]? = some ((k / n : Nat) : Int) ∧ s.2.2[k]? = some ((k % n : Nat) : Int)) ∧
  (∀ k, c ≤ k → s.2.1[k]? = iRow[k]? ∧ s.2.2[k]? = jCol[k]?)

end Callbacks

/-! ## Memory and loop lemmas -/

section Lemmas

open Ipopt

/-- A result in the range of `Index` is stored as it is. -/
theorem Ipopt.wrap_eq (z : Int) (h1 : -2147483648 ≤ z) (h2 : z ≤ 2147483647) : wrap z = z := by
  unfold wrap
  omega

/-- A read at a natural-number index is the list lookup. -/
theorem Ipopt.rd_natCast {β : Type} (p : List β) (k : Nat) : rd p (k : Index) = p[k]? := by
  simp [rd]

/-- A write at a natural-number index inside the array is `List.set`. -/
theorem Ipopt.wr_natCast {β : Type} (p : List β) (k : Nat) (v : β) (h : k < p.length) :
    wr p (k : Index) v = some (p.set k v) := by
  simp [wr, h]

/-- The invariant rule for `forLoop`, started at index `i0`: an invariant that every iteration
re-establishes (its body succeeding) holds at the end, and the loop succeeds. -/
theorem Ipopt.forLoop_inv_from {σ : Type} (body : Index → σ → Option σ) (Inv : Nat → σ → Prop)
    (k : Nat) : ∀ (i0 : Nat) (s : σ), Inv i0 s →
    (∀ j, i0 ≤ j → j < i0 + k → ∀ s, Inv j s →
      ∃ s', body (j : Index) s = some s' ∧ Inv (j + 1) s') →
    ∃ s', forLoop body k (i0 : Index) s = some s' ∧ Inv (i0 + k) s' := by
  induction k with
  | zero => intro i0 s h0 _; exact ⟨s, rfl, by simpa using h0⟩
  | succ k ih =>
    intro i0 s h0 hstep
    obtain ⟨s1, hb, h1⟩ := hstep i0 (le_refl _) (by omega) s h0
    obtain ⟨s2, hl, h2⟩ := ih (i0 + 1) s1 h1
      (fun j hj hjk => hstep j (by omega) (by omega))
    refine ⟨s2, ?_, ?_⟩
    · simp only [forLoop, hb, Option.bind_some]
      simpa using hl
    · have : i0 + (k + 1) = i0 + 1 + k := by omega
      rw [this]; exact h2

/-- The invariant rule for a loop `for (Index i = 0; i < k; i++)`. -/
theorem Ipopt.forLoop_inv {σ : Type} (body : Index → σ → Option σ) (Inv : Nat → σ → Prop)
    (k : Nat) (s : σ) (h0 : Inv 0 s)
    (hstep : ∀ j, j < k → ∀ s, Inv j s →
      ∃ s', body (j : Index) s = some s' ∧ Inv (j + 1) s') :
    ∃ s', forLoop body k 0 s = some s' ∧ Inv k s' := by
  have := forLoop_inv_from body Inv k 0 s h0 (fun j _ hj => hstep j (by omega))
  simpa using this

/-- The constructor succeeds when `N ≥ 2` and `a` holds the `N-2` entries it reads; the adapter
then stores `N` and a copy of the first `N-2` constants. -/
theorem TutorialCpp_NLP.ctor_eq {α : Type} [Field α] (N : Int) (a : List α) (hN : 2 ≤ N)
    (ha : N - 2 ≤ a.length) :
    TutorialCpp_NLP.ctor N a = some { N_ := N, a_ := a.take (N - 2).toNat } := by
  obtain ⟨K, hK⟩ : ∃ K : Nat, (N - 2).toNat = K := ⟨_, rfl⟩
  have hK' : N - 2 = (K : Int) := by rw [← hK, Int.toNat_of_nonneg (by omega)]
  have hKa : K ≤ a.length := by omega
  obtain ⟨a_, hl, hlen, hget⟩ := forLoop_inv
    (fun i a_ => (rd a i).bind fun v => wr a_ i v)
    (fun j (a_ : List α) => a_.length = K ∧ ∀ i, i < j → a_[i]? = a[i]?)
    K (List.replicate K 0)
    ⟨by simp, fun i hi => absurd hi (Nat.not_lt_zero i)⟩
    (by
      rintro j hj s ⟨hlen, hget⟩
      have hja : j < a.length := by omega
      refine ⟨s.set j a[j], ?_, by simpa using hlen, ?_⟩
      · simp only [rd_natCast, List.getElem?_eq_getElem hja, Option.bind_some]
        exact wr_natCast _ _ _ (by omega)
      · intro i hi
        by_cases hij : i = j
        · subst hij
          rw [List.getElem?_set_self (by omega), List.getElem?_eq_getElem hja]
        · rw [List.getElem?_set_ne (by omega)]
          exact hget i (by omega))
  have hres : a_ = a.take K := by
    apply List.ext_getElem?
    intro i
    by_cases hi : i < K
    · rw [hget i hi, List.getElem?_take, if_pos hi]
    · rw [List.getElem?_eq_none (by omega), List.getElem?_eq_none]
      rw [List.length_take]; omega
  have hneg : ¬ N - 2 < 0 := by omega
  simp only [TutorialCpp_NLP.ctor, hneg, if_false, hK, hl, Option.map_some', hres]

/-- The call `eval_f` on the first `k` entries of `x`: it succeeds and accumulates the squares. -/
theorem TutorialCpp_NLP.eval_f_eq {α : Type} [Field α] (t : TutorialCpp_NLP α) (k : Nat)
    (x : List α) (new_x : Bool) (hk : k ≤ x.length) :
    t.eval_f (k : Int) x new_x
      = some (true, ((x.take k).map fun xi => (xi - 1) * (xi - 1)).sum) := by
  obtain ⟨v, hl, hv⟩ := forLoop_inv
    (fun i (obj_value : α) => (rd x i).map fun xi => obj_value + (xi - 1) * (xi - 1))
    (fun j obj_value => obj_value = ((x.take j).map fun xi => (xi - 1) * (xi - 1)).sum)
    k 0 (by simp)
    (by
      rintro j hj s rfl
      have hjx : j < x.length := by omega
      refine ⟨_, ?_, rfl⟩
      simp only [rd_natCast, List.getElem?_eq_getElem hjx, Option.map_some', List.take_succ,
        Option.toList_some, List.map_append, List.sum_append, List.map_cons, List.map_nil,
        List.sum_cons, List.sum_nil, add_zero])
  simp only [TutorialCpp_NLP.eval_f, Int.toNat_ofNat, hl, Option.map_some', hv]

/-- The call `eval_grad_f` on the first `k` entries: it succeeds, overwrites entries `0..k-1` of
`grad_f` with `2*(x[i]-1)` and keeps the others. -/
theorem TutorialCpp_NLP.eval_grad_f_eq {α : Type} [Field α] (t : TutorialCpp_NLP α) (k : Nat)
    (x : List α) (new_x : Bool) (grad_f : List α) (hk : k ≤ x.length)
    (hg : k ≤ grad_f.length) :
    ∃ g' : List α, t.eval_grad_f (k : Int) x new_x grad_f = some (true, g') ∧
      g'.length = grad_f.length ∧
      (∀ i (hi : i < k), g'[i]? = some (2 * (x[i] - 1))) ∧
      (∀ i, k ≤ i → g'[i]? = grad_f[i]?) := by
  obtain ⟨g', hl, hlen, hlo, hhi⟩ := forLoop_inv
    (fun i (grad_f : List α) => (rd x i).bind fun xi => wr grad_f i (2 * (xi - 1)))
    (fun j (g' : List α) => g'.length = grad_f.length ∧
      (∀ i (hi : i < j), i < k → g'[i]? = (x[i]?).map fun xi => 2 * (xi - 1)) ∧
      (∀ i, j ≤ i → g'[i]? = grad_f[i]?))
    k grad_f ⟨rfl, fun i hi => absurd hi (Nat.not_lt_zero i), fun i _ => rfl⟩
    (by
      rintro j hj s ⟨hlen, hlo, hhi⟩
      have hjx : j < x.length := by omega
      refine ⟨s.set j (2 * (x[j] - 1)), ?_, by simpa using hlen, ?_, ?_⟩
      · simp only [rd_natCast, List.getElem?_eq_getElem hjx, Option.bind_some]
        exact wr_natCast _ _ _ (by omega)
      · intro i hi hik
        by_cases hij : i = j
        · subst hij
          rw [List.getElem?_set_self (by omega), List.getElem?_eq_getElem hjx]; rfl
        · rw [List.getElem?_set_ne (by omega)]
          exact hlo i (by omega) hik
      · intro i hi
        rw [List.getElem?_set_ne (by omega)]
        exact hhi i (by omega))
  refine ⟨g', ?_, hlen, ?_, hhi⟩
  · simp only [TutorialCpp_NLP.eval_grad_f, Int.toNat_ofNat, hl, Option.map_some']
  · intro i hi
    rw [hlo i hi hi, List.getElem?_eq_getElem (by omega)]; rfl

/-- The objective after replacing coordinate `i` of `x` by `s`. -/
theorem TutorialCpp_NLP.eval_f_set (t : TutorialCpp_NLP ℝ) (x : List ℝ) (new_x : Bool)
    (i : Nat) (hi : i < x.length) (s : ℝ) :
    t.eval_f (x.length : Int) (x.set i s) new_x
      = some (true, (x.map fun xi => (xi - 1) * (xi - 1)).sum
          + (-((x[i] - 1) * (x[i] - 1)) + (s - 1) * (s - 1))) := by
  have h := TutorialCpp_NLP.eval_f_eq t (x.set i s).length (x.set i s) new_x (le_refl _)
  rw [List.take_length, List.map_set, List.sum_set'] at h
  simp only [List.length_set, List.length_map, hi, dite_true, List.getElem_map] at h
  exact h

/-- A sum of the squares `(v-1)*(v-1)` over the reals is nonnegative. -/
theorem TutorialCpp_NLP.sum_sq_nonneg (x : List ℝ) :
    0 ≤ (x.map fun xi => (xi - 1) * (xi - 1)).sum := by
  induction x with
  | nil => simp
  | cons v l ih =>
    simp only [List.map_cons, List.sum_cons]
    exact add_nonneg (mul_self_nonneg _) ih

/-- A sum of the squares `(v-1)*(v-1)` over the reals vanishes exactly when every `v` is `1`. -/
theorem TutorialCpp_NLP.sum_sq_eq_zero_iff (x : List ℝ) :
    (x.map fun xi => (xi - 1) * (xi - 1)).sum = 0 ↔ ∀ v ∈ x, v = 1 := by
  induction x with
  | nil => simp
  | cons v l ih =>
    simp only [List.map_cons, List.sum_cons, List.mem_cons, forall_eq_or_imp]
    rw [add_eq_zero_iff_of_nonneg (mul_self_nonneg _) (TutorialCpp_NLP.sum_sq_nonneg l), ih,
      mul_self_eq_zero, sub_eq_zero]

/-- The read `p[k+1]`. -/
theorem Ipopt.rd_natCast_add_one {β : Type} (p : List β) (k : Nat) :
    rd p ((k : Int) + 1) = p[k + 1]? := by
  rw [show (k : Int) + 1 = ((k + 1 : Nat) : Int) by push_cast; rfl, rd_natCast]

/-- The read `p[k+2]`. -/
theorem Ipopt.rd_natCast_add_two {β : Type} (p : List β) (k : Nat) :
    rd p ((k : Int) + 2) = p[k + 2]? := by
  rw [show (k : Int) + 2 = ((k + 2 : Nat) : Int) by push_cast; rfl, rd_natCast]

/-- The call `eval_g` for `k` constraints: when the adapter stores at least `k` constants, `x` has the
`k+2` entries the loop reads and `g` has room for `k` entries, the call succeeds, overwrites
entries `0..k-1` of `g` with the constraint values and keeps the others. -/
theorem TutorialCpp_NLP.eval_g_eq {α : Type} [Field α] (cos : α → α) (t : TutorialCpp_NLP α)
    (n : Int) (x : List α) (new_x : Bool) (k : Nat) (g : List α)
    (ha : k ≤ t.a_.length) (hx : 0 < k → k + 2 ≤ x.length) (hg : k ≤ g.length) :
    ∃ g' : List α, t.eval_g cos n x new_x (k : Int) g = some (true, g') ∧
      g'.length = g.length ∧
      (∀ j (_ : j + 2 < x.length) (_ : j < t.a_.length), j < k →
        g'[j]? = some ((x[j + 1] * x[j + 1] + 1.5 * x[j + 1] - t.a_[j]) * cos x[j + 2] - x[j])) ∧
      (∀ j, k ≤ j → g'[j]? = g[j]?) := by
  obtain ⟨g', hl, hlen, hlo, hhi⟩ := forLoop_inv
    (fun j (g : List α) =>
        (rd x (j + 1)).bind fun x1 =>
        (rd t.a_ j).bind fun aj =>
        (rd x (j + 2)).bind fun x2 =>
        (rd x j).bind fun x0 =>
        wr g j ((x1 * x1 + 1.5 * x1 - aj) * cos x2 - x0))
    (fun i (g' : List α) => g'.length = g.length ∧
      (∀ j (_ : j + 2 < x.length) (_ : j < t.a_.length), j < i →
        g'[j]? = some ((x[j + 1] * x[j + 1] + 1.5 * x[j + 1] - t.a_[j]) * cos x[j + 2] - x[j])) ∧
      (∀ j, i ≤ j → g'[j]? = g[j]?))
    k g ⟨rfl, fun j _ _ hj => absurd hj (Nat.not_lt_zero j), fun j _ => rfl⟩
    (by
      rintro j hj s ⟨hlen, hlo, hhi⟩
      have hjx : j + 2 < x.length := by have := hx (by omega); omega
      have hja : j < t.a_.length := by omega
      refine ⟨s.set j ((x[j + 1] * x[j + 1] + 1.5 * x[j + 1] - t.a_[j]) * cos x[j + 2]
        - x[j]), ?_, by simpa using hlen, ?_, ?_⟩
      · simp only [rd_natCast, rd_natCast_add_one, rd_natCast_add_two,
          List.getElem?_eq_getElem hjx, List.getElem?_eq_getElem hja,
          List.getElem?_eq_getElem (show j + 1 < x.length by omega),
          List.getElem?_eq_getElem (show j < x.length by omega), Option.bind_some]
        exact wr_natCast _ _ _ (by omega)
      · intro i hi2 hia hi
        by_cases hij : i = j
        · subst hij
          rw [List.getElem?_set_self (by omega)]
        · rw [List.getElem?_set_ne (by omega)]
          exact hlo i hi2 hia (by omega)
      · intro i hi
        rw [List.getElem?_set_ne (by omega)]
        exact hhi i (by omega))
  refine ⟨g', ?_, hlen, hlo, hhi⟩
  simp only [TutorialCpp_NLP.eval_g, Int.toNat_ofNat, hl, Option.map_some']

/-- The inner loop of `eval_jac_g` writes row `i` of the pattern. -/
theorem TutorialCpp_NLP.jac_inner (n m : Nat) (iRow jCol : List Index)
    (hI : m * n ≤ iRow.length) (hJ : m * n ≤ jCol.length) (i : Nat) (hi : i < m)
    (s : Index × List Index × List Index)
    (hs : TutorialCpp_NLP.jacFilled n iRow jCol (i * n) s) :
    ∃ s', forLoop (fun j (s : Index × List Index × List Index) =>
              (wr s.2.1 s.1 (i : Int)).bind fun iRow =>
              (wr s.2.2 s.1 j).bind fun jCol =>
              some (s.1 + 1, iRow, jCol)) n 0 s = some s' ∧
      TutorialCpp_NLP.jacFilled n iRow jCol ((i + 1) * n) s' := by
  have hmn : (i + 1) * n ≤ m * n := Nat.mul_le_mul_right n hi
  have hexp : (i + 1) * n = i * n + n := by ring
  rw [hexp]
  refine forLoop_inv _ (fun j s => TutorialCpp_NLP.jacFilled n iRow jCol (i * n + j) s) n s
    (by simpa using hs) ?_
  rintro j hj ⟨inz, r, c⟩ ⟨hinz, hlr, hlc, hlo, hhi⟩
  simp only at hinz hlr hlc hlo hhi
  subst hinz
  have hb : i * n + j < m * n := by omega
  refine ⟨(((i * n + j : Nat) : Int) + 1, r.set (i * n + j) (i : Int),
    c.set (i * n + j) (j : Int)), ?_, ?_, by simpa using hlr, by simpa using hlc, ?_, ?_⟩
  · simp only [wr_natCast r _ _ (show i * n + j < r.length by omega),
      wr_natCast c _ _ (show i * n + j < c.length by omega), Option.some_bind]
  · push_cast; ring
  · intro k hk
    by_cases hkc : k = i * n + j
    · subst hkc
      have hn : 0 < n := by omega
      have hdiv : (i * n + j) / n = i := by
        rw [Nat.add_comm, Nat.add_mul_div_right _ _ hn, Nat.div_eq_of_lt hj, Nat.zero_add]
      have hmod : (i * n + j) % n = j := by
        rw [Nat.add_comm, Nat.add_mul_mod_self_right, Nat.mod_eq_of_lt hj]
      simp only [List.getElem?_set_self (show i * n + j < r.length by omega),
        List.getElem?_set_self (show i * n + j < c.length by omega), hdiv, hmod, and_self]
    · simp only [List.getElem?_set_ne (Ne.symm hkc)]
      exact hlo k (by omega)
  · intro k hk
    simp only [List.getElem?_set_ne (show i * n + j ≠ k by omega)]
    exact hhi k (by omega)

/-- The structure phase of `eval_jac_g`: when `iRow` and `jCol` have room for the
`m.toNat * n.toNat` entries, the call returns `true`, entry `k` of the first
`m.toNat * n.toNat` is `(k / n, k % n)` and the later entries are untouched. -/
theorem TutorialCpp_NLP.eval_jac_g_structure {α : Type} [Field α] (t : TutorialCpp_NLP α)
    (n : Int) (x : List α) (new_x : Bool) (m nele_jac : Int) (iRow jCol : List Index)
    (hI : m.toNat * n.toNat ≤ iRow.length) (hJ : m.toNat * n.toNat ≤ jCol.length) :
    ∃ iRow' jCol' : List Index,
      t.eval_jac_g n x new_x m nele_jac iRow jCol none = some (true, iRow', jCol', none) ∧
      iRow'.length = iRow.length ∧ jCol'.length = jCol.length ∧
      (∀ k, k < m.toNat * n.toNat →
        iRow'[k]? = some ((k / n.toNat : Nat) : Int) ∧
        jCol'[k]? = some ((k % n.toNat : Nat) : Int)) ∧
      (∀ k, m.toNat * n.toNat ≤ k → iRow'[k]? = iRow[k]? ∧ jCol'[k]? = jCol[k]?) := by
  obtain ⟨⟨inz, r, c⟩, hl, -, hlr, hlc, hlo, hhi⟩ := forLoop_inv
    (fun i s =>
      forLoop (fun j (s : Index × List Index × List Index) =>
          (wr s.2.1 s.1 i).bind fun iRow =>
          (wr s.2.2 s.1 j).bind fun jCol =>
          some (s.1 + 1, iRow, jCol))
        n.toNat 0 s)
    (fun i s => TutorialCpp_NLP.jacFilled n.toNat iRow jCol (i * n.toNat) s)
    m.toNat ((0 : Index), iRow, jCol)
    ⟨by simp, rfl, rfl, fun k hk => absurd hk (by simp), fun k _ => ⟨rfl, rfl⟩⟩
    (fun i hi s hs => TutorialCpp_NLP.jac_inner n.toNat m.toNat iRow jCol hI hJ i hi s hs)
  refine ⟨r, c, ?_, hlr, hlc, hlo, hhi⟩
  simp only [TutorialCpp_NLP.eval_jac_g, hl, Option.map_some']

/-- A loop `for (Index i = 0; i < k; i++) p[i] = v` on an array with room for `k` entries
succeeds, sets the first `k` entries to `v` and keeps the others. -/
theorem Ipopt.forLoop_fill {β : Type} (v : β) (k : Nat) (p : List β) (hk : k ≤ p.length) :
    ∃ p' : List β, forLoop (fun i p => wr p i v) k 0 p = some p' ∧
      p'.length = p.length ∧ (∀ i, i < k → p'[i]? = some v) ∧
      (∀ i, k ≤ i → p'[i]? = p[i]?) := by
  refine forLoop_inv (fun i p => wr p i v)
    (fun j (q : List β) => q.length = p.length ∧ (∀ i, i < j → q[i]? = some v) ∧
      (∀ i, j ≤ i → q[i]? = p[i]?))
    k p ⟨rfl, fun i hi => absurd hi (Nat.not_lt_zero i), fun i _ => rfl⟩ ?_
  rintro j hj q ⟨hlen, hlo, hhi⟩
  refine ⟨q.set j v, wr_natCast _ _ _ (by omega), by simpa using hlen, ?_, ?_⟩
  · intro i hi
    by_cases hij : i = j
    · subst hij
      rw [List.getElem?_set_self (by omega)]
    · rw [List.getElem?_set_ne (by omega)]
      exact hlo i (by omega)
  · intro i hi
    rw [List.getElem?_set_ne (by omega)]
    exact hhi i (by omega)

/-- An array whose first `k` entries are all `v` starts with `k` copies of `v`. -/
theorem Ipopt.take_eq_replicate {β : Type} (v : β) (k : Nat) (p : List β)
    (h : ∀ i, i < k → p[i]? = some v) : p.take k = List.replicate k v := by
  apply List.ext_getElem?
  intro i
  by_cases hi : i < k
  · rw [List.getElem?_take, if_pos hi, h i hi, List.getElem?_replicate, if_pos hi]
  · rw [List.getElem?_take, if_neg hi, List.getElem?_replicate, if_neg hi]

/-- The third loop of `get_bounds_info`, `g_l[j] = g_u[j] = 0.`, on arrays with room for `k`
entries: both get zeros in their first `k` entries and keep the others. -/
theorem TutorialCpp_NLP.bounds_g_loop {α : Type} [Field α] (k : Nat) (g_l g_u : List α)
    (hl : k ≤ g_l.length) (hu : k ≤ g_u.length) :
    ∃ l' u' : List α,
      forLoop (fun j (s : List α × List α) =>
          (wr s.2 j 0).bind fun g_u =>
          (wr s.1 j 0).bind fun g_l =>
          some (g_l, g_u)) k 0 (g_l, g_u) = some (l', u') ∧
      l'.length = g_l.length ∧ u'.length = g_u.length ∧
      (∀ j, j < k → l'[j]? = some 0 ∧ u'[j]? = some 0) ∧
      (∀ j, k ≤ j → l'[j]? = g_l[j]? ∧ u'[j]? = g_u[j]?) := by
  obtain ⟨⟨l', u'⟩, hrun, h1, h2, h3, h4⟩ := forLoop_inv
    (fun j (s : List α × List α) =>
          (wr s.2 j 0).bind fun g_u =>
          (wr s.1 j 0).bind fun g_l =>
          some (g_l, g_u))
    (fun i (s : List α × List α) => s.1.length = g_l.length ∧ s.2.length = g_u.length ∧
      (∀ j, j < i → s.1[j]? = some 0 ∧ s.2[j]? = some 0) ∧
      (∀ j, i ≤ j → s.1[j]? = g_l[j]? ∧ s.2[j]? = g_u[j]?))
    k (g_l, g_u) ⟨rfl, rfl, fun j hj => absurd hj (Nat.not_lt_zero j), fun j _ => ⟨rfl, rfl⟩⟩
    (by
      rintro i hi ⟨l, u⟩ ⟨hll, hlu, hlo, hhi⟩
      simp only at hll hlu hlo hhi
      refine ⟨(l.set i 0, u.set i 0), ?_, by simpa using hll, by simpa using hlu, ?_, ?_⟩
      · simp only [wr_natCast u _ _ (show i < u.length by omega),
          wr_natCast l _ _ (show i < l.length by omega), Option.some_bind]
      · intro j hj
        by_cases hji : j = i
        · subst hji
          simp only [List.getElem?_set_self (show j < l.length by omega),
            List.getElem?_set_self (show j < u.length by omega), and_self]
        · simp only [List.getElem?_set_ne (Ne.symm hji)]
          exact hlo j (by omega)
      · intro j hj
        simp only [List.getElem?_set_ne (show i ≠ j by omega)]
        exact hhi j (by omega))
  exact ⟨l', u', hrun, h1, h2, h3, h4⟩

/-- The call `get_bounds_info` on arrays with room for `n` variable bounds and `m` constraint
bounds: it returns `true`, fills the first `n` entries of `x_l` with `-1.5` and of `x_u` with `0`,
the first `m` entries of `g_l` and `g_u` with `0`, and keeps lengths and later entries. -/
theorem TutorialCpp_NLP.get_bounds_info_eq {α : Type} [Field α] (t : TutorialCpp_NLP α)
    (n m : Nat) (x_l x_u g_l g_u : List α) (hxl : n ≤ x_l.length) (hxu : n ≤ x_u.length)
    (hgl : m ≤ g_l.length) (hgu : m ≤ g_u.length) :
    ∃ x_l' x_u' g_l' g_u' : List α,
      t.get_bounds_info (n : Int) x_l x_u (m : Int) g_l g_u
        = some (true, x_l', x_u', g_l', g_u') ∧
      (x_l'.length = x_l.length ∧ x_u'.length = x_u.length ∧
        g_l'.length = g_l.length ∧ g_u'.length = g_u.length) ∧
      (∀ i, i < n → x_l'[i]? = some (-1.5) ∧ x_u'[i]? = some 0) ∧
      (∀ j, j < m → g_l'[j]? = some 0 ∧ g_u'[j]? = some 0) ∧
      (∀ i, n ≤ i → x_l'[i]? = x_l[i]? ∧ x_u'[i]? = x_u[i]?) ∧
      (∀ j, m ≤ j → g_l'[j]? = g_l[j]? ∧ g_u'[j]? = g_u[j]?) := by
  obtain ⟨l, hl, hll, hl1, hl2⟩ := forLoop_fill (-1.5 : α) n x_l hxl
  obtain ⟨u, hu, hul, hu1, hu2⟩ := forLoop_fill (0 : α) n x_u hxu
  obtain ⟨gl, gu, hg, hgll, hgul, hg1, hg2⟩ := TutorialCpp_NLP.bounds_g_loop m g_l g_u hgl hgu
  refine ⟨l, u, gl, gu, ?_, ⟨hll, hul, hgll, hgul⟩, fun i hi => ⟨hl1 i hi, hu1 i hi⟩, hg1,
    fun i hi => ⟨hl2 i hi, hu2 i hi⟩, hg2⟩
  simp only [TutorialCpp_NLP.get_bounds_info, Int.toNat_ofNat, hl, hu, hg, Option.some_bind,
    Option.map_some']

/-- The call `get_starting_point` under its asserted precondition, on an array `x` with room
for `n` entries: it returns `true`, fills the first `n` entries of `x` with `-0.5` and hands
back `z_L`, `z_U` and `lambda` as they were. -/
theorem TutorialCpp_NLP.get_starting_point_eq {α : Type} [Field α] (t : TutorialCpp_NLP α)
    (n : Nat) (x z_L z_U lambda : List α) (m : Int) (hx : n ≤ x.length) :
    ∃ x' : List α,
      t.get_starting_point (n : Int) true x false z_L z_U m false lambda
        = some (true, x', z_L, z_U, lambda) ∧
      x'.length = x.length ∧ (∀ i, i < n → x'[i]? = some (-0.5)) ∧
      (∀ i, n ≤ i → x'[i]? = x[i]?) := by
  obtain ⟨x', hrun, hlen, h1, h2⟩ := forLoop_fill (-0.5 : α) n x hx
  refine ⟨x', ?_, hlen, h1, h2⟩
  simp [TutorialCpp_NLP.get_starting_point, hrun]

/-- The degree-4 Taylor polynomial of the cosine approximates `cos (1/2)` to within `2.6e-5`. -/
theorem TutorialCpp_NLP.cos_half_bound :
    |Real.cos (1 / 2) - (1 - (1 / 2) ^ 2 / 2 + (1 / 2) ^ 4 / 24)| ≤ 7 / 276480 := by
  have habs : Complex.abs (((1 / 2 : ℝ) : ℂ) * Complex.I) ≤ 1 := by
    rw [map_mul, Complex.abs_I, mul_one, Complex.abs_ofReal]
    norm_num [abs_of_pos]
  have hb := Complex.exp_bound habs (show 0 < 6 by norm_num)
  have hre := Complex.abs_re_le_abs
    (Complex.exp (((1 / 2 : ℝ) : ℂ) * Complex.I)
      - ∑ m ∈ Finset.range 6, (((1 / 2 : ℝ) : ℂ) * Complex.I) ^ m / (m.factorial : ℂ))
  have hS : (Complex.exp (((1 / 2 : ℝ) : ℂ) * Complex.I)
      - ∑ m ∈ Finset.range 6, (((1 / 2 : ℝ) : ℂ) * Complex.I) ^ m / (m.factorial : ℂ)).re
      = Real.cos (1 / 2) - (1 - (1 / 2) ^ 2 / 2 + (1 / 2) ^ 4 / 24) := by
    rw [Complex.sub_re, Complex.exp_ofReal_mul_I_re]
    congr 1
    simp only [Finset.sum_range_succ, Finset.range_zero, Finset.sum_empty, Nat.factorial,
      mul_pow, Complex.I_sq]
    have h3 : Complex.I ^ 3 = -Complex.I := by
      rw [pow_succ, Complex.I_sq]; ring
    have h4 : Complex.I ^ 4 = 1 := Complex.I_pow_four
    have h5 : Complex.I ^ 5 = Complex.I := by
      rw [pow_succ, h4]; ring
    rw [h3, h4, h5]
    simp
    norm_num
  rw [hS] at hre
  have habs' : Complex.abs (((1 / 2 : ℝ) : ℂ) * Complex.I) = 1 / 2 := by
    rw [map_mul, Complex.abs_I, mul_one, Complex.abs_ofReal]
    norm_num [abs_of_pos]
  rw [habs'] at hb
  refine le_trans hre (le_trans hb ?_)
  norm_num [Nat.factorial]

/-- A loop whose body hands the first component of its state on unchanged computes, on that
component fixed to `t`, what the loop on the second component computes. -/
theorem Ipopt.forLoop_thread {τ σ : Type} (t : τ) (body : Index → σ → Option σ)
    (bodyS : Index → τ × σ → Option (τ × σ))
    (h : ∀ i s, bodyS i (t, s) = (body i s).map (Prod.mk t)) (k : Nat) :
    ∀ (i : Index) (s : σ),
      forLoop bodyS k i (t, s) = (forLoop body k i s).map (Prod.mk t) := by
  induction k with
  | zero => intro i s; rfl
  | succ k ih =>
    intro i s
    simp only [forLoop, h i s]
    cases body i s with
    | none => rfl
    | some s1 => simpa using ih (i + 1) s1

/-- The state-passing `eval_f` returns the object it was called on, with the results of `eval_f`. -/
theorem TutorialCpp_NLP.eval_f_st_eq {α : Type} [Field α] (t : TutorialCpp_NLP α) (n : Int)
    (x : List α) (new_x : Bool) :
    t.eval_f_st n x new_x = (t.eval_f n x new_x).map (Prod.mk t) := by
  simp only [TutorialCpp_NLP.eval_f_st, TutorialCpp_NLP.eval_f]
  rw [forLoop_thread t
    (fun i obj_value => (rd x i).map fun xi => obj_value + (xi - 1) * (xi - 1)) _
    (fun i s => by dsimp only; cases rd x i <;> rfl)]
  cases forLoop (fun i obj_value => (rd x i).map fun xi => obj_value + (xi - 1) * (xi - 1))
    n.toNat 0 (0 : α) <;> rfl

/-- The state-passing `eval_g` returns the object it was called on, with the results of `eval_g`. -/
theorem TutorialCpp_NLP.eval_g_st_eq {α : Type} [Field α] (cos : α → α) (t : TutorialCpp_NLP α)
    (n : Int) (x : List α) (new_x : Bool) (m : Int) (g : List α) :
    t.eval_g_st cos n x new_x m g = (t.eval_g cos n x new_x m g).map (Prod.mk t) := by
  simp only [TutorialCpp_NLP.eval_g_st, TutorialCpp_NLP.eval_g]
  rw [forLoop_thread t
    (fun j g =>
        (rd x (j + 1)).bind fun x1 =>
        (rd t.a_ j).bind fun aj =>
        (rd x (j + 2)).bind fun x2 =>
        (rd x j).bind fun x0 =>
        wr g j ((x1 * x1 + 1.5 * x1 - aj) * cos x2 - x0)) _
    (fun j s => by
      dsimp only
      cases rd x (j + 1) <;> cases rd t.a_ j <;> cases rd x (j + 2) <;> cases rd x j <;> rfl)]
  cases forLoop (fun j g =>
        (rd x (j + 1)).bind fun x1 =>
        (rd t.a_ j).bind fun aj =>
        (rd x (j + 2)).bind fun x2 =>
        (rd x j).bind fun x0 =>
        wr g j ((x1 * x1 + 1.5 * x1 - aj) * cos x2 - x0)) m.toNat 0 g <;> rfl

/-- The state-passing `get_nlp_info` returns the object it was called on, with the values of
`get_nlp_info`. -/
theorem TutorialCpp_NLP.get_nlp_info_st_eq {α : Type} [Field α] (t : TutorialCpp_NLP α) :
    t.get_nlp_info_st = (t, t.get_nlp_info) := rfl

/-- The state-passing `eval_h` returns the object it was called on, with the results of `eval_h`. -/
theorem TutorialCpp_NLP.eval_h_st_eq {α : Type} [Field α] (t : TutorialCpp_NLP α) (n : Int)
    (x : List α) (new_x : Bool) (obj_factor : α) (m : Int) (lambda : List α)
    (new_lambda : Bool) (nele_hess : Int) (iRow jCol : List Index) (values : Option (List α)) :
    t.eval_h_st n x new_x obj_factor m lambda new_lambda nele_hess iRow jCol values
      = (t.eval_h n x new_x obj_factor m lambda new_lambda nele_hess iRow jCol values).map
          (Prod.mk t) := rfl

/-- The state-passing `eval_grad_f` returns the object it was called on, with the results of
`eval_grad_f`. -/
theorem TutorialCpp_NLP.eval_grad_f_st_eq {α : Type} [Field α] (t : TutorialCpp_NLP α)
    (n : Int) (x : List α) (new_x : Bool) (grad_f : List α) :
    t.eval_grad_f_st n x new_x grad_f = (t.eval_grad_f n x new_x grad_f).map (Prod.mk t) := by
  simp only [TutorialCpp_NLP.eval_grad_f_st, TutorialCpp_NLP.eval_grad_f]
  rw [forLoop_thread t
    (fun i grad_f => (rd x i).bind fun xi => wr grad_f i (2 * (xi - 1))) _
    (fun i s => by dsimp only; cases rd x i <;> rfl)]
  cases forLoop (fun i grad_f => (rd x i).bind fun xi => wr grad_f i (2 * (xi - 1)))
    n.toNat 0 grad_f <;> rfl

/-- The state-passing `get_starting_point` returns the object it was called on, with the results
of `get_starting_point`. -/
theorem TutorialCpp_NLP.get_starting_point_st_eq {α : Type} [Field α] (t : TutorialCpp_NLP α)
    (n : Int) (init_x : Bool) (x : List α) (init_z : Bool) (z_L z_U : List α) (m : Int)
    (init_lambda : Bool) (lambda : List α) :
    t.get_starting_point_st n init_x x init_z z_L z_U m init_lambda lambda
      = (t.get_starting_point n init_x x init_z z_L z_U m init_lambda lambda).map
          (Prod.mk t) := by
  simp only [TutorialCpp_NLP.get_starting_point_st, TutorialCpp_NLP.get_starting_point]
  split
  · rw [forLoop_thread t (fun i x => wr x i (-0.5)) _ (fun i s => rfl)]
    cases forLoop (fun i x => wr x i (-0.5 : α)) n.toNat 0 x <;> rfl
  · rfl

/-- The state-passing `get_bounds_info` returns the object it was called on, with the results of
`get_bounds_info`. -/
theorem TutorialCpp_NLP.get_bounds_info_st_eq {α : Type} [Field α] (t : TutorialCpp_NLP α)
    (n : Int) (x_l x_u : List α) (m : Int) (g_l g_u : List α) :
    t.get_bounds_info_st n x_l x_u m g_l g_u
      = (t.get_bounds_info n x_l x_u m g_l g_u).map (Prod.mk t) := by
  simp only [TutorialCpp_NLP.get_bounds_info_st, TutorialCpp_NLP.get_bounds_info]
  rw [forLoop_thread t (fun i x_l => wr x_l i (-1.5)) _ (fun i s => rfl)]
  cases forLoop (fun i x_l => wr x_l i (-1.5 : α)) n.toNat 0 x_l with
  | none => rfl
  | some l =>
    simp only [Option.map_some', Option.some_bind]
    rw [forLoop_thread t (fun i x_u => wr x_u i 0) _ (fun i s => rfl)]
    cases forLoop (fun i x_u => wr x_u i (0 : α)) n.toNat 0 x_u with
    | none => rfl
    | some u =>
      simp only [Option.map_some', Option.some_bind]
      rw [forLoop_thread t
        (fun j (s : List α × List α) =>
          (wr s.2 j 0).bind fun g_u => (wr s.1 j 0).bind fun g_l => some (g_l, g_u)) _
        (fun j s => by
          dsimp only
          cases wr s.2 j 0 <;> cases wr s.1 j 0 <;> rfl)]
      cases forLoop (fun j (s : List α × List α) =>
          (wr s.2 j 0).bind fun g_u => (wr s.1 j 0).bind fun g_l => some (g_l, g_u))
        m.toNat 0 (g_l, g_u) <;> rfl

/-- The state-passing `finalize_solution` returns the object it was called on, with the lines of
`finalize_solution`. -/
theorem TutorialCpp_NLP.finalize_solution_st_eq {α : Type} [Field α] (t : TutorialCpp_NLP α)
    (n : Int) (x z_L z_U : List α) (m : Int) (g lambda : List α) (obj_value : α) :
    t.finalize_solution_st n x z_L z_U m g lambda obj_value
      = (t.finalize_solution n x z_L z_U m g lambda obj_value).map (Prod.mk t) := by
  simp only [TutorialCpp_NLP.finalize_solution_st, TutorialCpp_NLP.finalize_solution]
  rw [forLoop_thread t (fun i out => (rd x i).map fun v => out ++ [ConsoleLine.x i v]) _
    (fun i s => by dsimp only; cases rd x i <;> rfl)]
  cases forLoop (fun i out => (rd x i).map fun v => out ++ [ConsoleLine.x i v])
    n.toNat 0 [] with
  | none => rfl
  | some o1 =>
    simp only [Option.map_some', Option.some_bind]
    rw [forLoop_thread t (fun i out => (rd z_L i).map fun v => out ++ [ConsoleLine.z_L i v]) _
      (fun i s => by dsimp only; cases rd z_L i <;> rfl)]
    cases forLoop (fun i out => (rd z_L i).map fun v => out ++ [ConsoleLine.z_L i v])
      n.toNat 0 o1 with
    | none => rfl
    | some o2 =>
      simp only [Option.map_some', Option.some_bind]
      rw [forLoop_thread t
        (fun i out => (rd z_U i).map fun v => out ++ [ConsoleLine.z_U i v]) _
        (fun i s => by dsimp only; cases rd z_U i <;> rfl)]
      cases forLoop (fun i out => (rd z_U i).map fun v => out ++ [ConsoleLine.z_U i v])
        n.toNat 0 o2 <;> rfl

/-- The state-passing `eval_jac_g` returns the object it was called on, with the results of
`eval_jac_g`. -/
theorem TutorialCpp_NLP.eval_jac_g_st_eq {α : Type} [Field α] (t : TutorialCpp_NLP α)
    (n : Int) (x : List α) (new_x : Bool) (m nele_jac : Int) (iRow jCol : List Index)
    (values : Option (List α)) :
    t.eval_jac_g_st n x new_x m nele_jac iRow jCol values
      = (t.eval_jac_g n x new_x m nele_jac iRow jCol values).map (Prod.mk t) := by
  cases values with
  | some v => rfl
  | none =>
    simp only [TutorialCpp_NLP.eval_jac_g_st, TutorialCpp_NLP.eval_jac_g]
    rw [forLoop_thread t
      (fun i s =>
        forLoop (fun j (s : Index × List Index × List Index) =>
            (wr s.2.1 s.1 i).bind fun iRow =>
            (wr s.2.2 s.1 j).bind fun jCol =>
            some (s.1 + 1, iRow, jCol))
          n.toNat 0 s) _
      (fun i s => forLoop_thread t
        (fun j (s : Index × List Index × List Index) =>
            (wr s.2.1 s.1 i).bind fun iRow =>
            (wr s.2.2 s.1 j).bind fun jCol =>
            some (s.1 + 1, iRow, jCol)) _
        (fun j s => by
          dsimp only
          cases wr s.2.1 s.1 i <;> cases wr s.2.2 s.1 j <;> rfl) n.toNat 0 s)]
    cases forLoop (fun i s =>
        forLoop (fun j (s : Index × List Index × List Index) =>
            (wr s.2.1 s.1 i).bind fun iRow =>
            (wr s.2.2 s.1 j).bind fun jCol =>
            some (s.1 + 1, iRow, jCol))
          n.toNat 0 s) m.toNat 0 ((0 : Index), iRow, jCol) <;> rfl

/-- A callback that returns leaves the adapter object as it was: each state-passing body hands
back the object it was called on. -/
theorem TutorialCpp_NLP.step_eq {α : Type} [Field α] (cos : α → α) (t t' : TutorialCpp_NLP α)
    (c : Callback α) (h : TutorialCpp_NLP.step cos t c = some t') : t' = t := by
  cases c <;>
    simp only [TutorialCpp_NLP.step, TutorialCpp_NLP.get_nlp_info_st_eq,
      TutorialCpp_NLP.get_bounds_info_st_eq, TutorialCpp_NLP.get_starting_point_st_eq,
      TutorialCpp_NLP.eval_f_st_eq, TutorialCpp_NLP.eval_grad_f_st_eq,
      TutorialCpp_NLP.eval_g_st_eq, TutorialCpp_NLP.eval_jac_g_st_eq,
      TutorialCpp_NLP.eval_h_st_eq, TutorialCpp_NLP.finalize_solution_st_eq,
      Option.map_map, Option.map_eq_some', Option.some.injEq, Function.comp_apply] at h
  · exact h.symm
  all_goals
    obtain ⟨_, _, rfl⟩ := h
    rfl

/-- A sequence of callbacks that all return leaves the adapter object as it was. -/
theorem TutorialCpp_NLP.run_eq {α : Type} [Field α] (cos : α → α) (cs : List (Callback α)) :
    ∀ t t' : TutorialCpp_NLP α, TutorialCpp_NLP.run cos t cs = some t' → t' = t := by
  induction cs with
  | nil =>
    intro t t' h
    simp only [TutorialCpp_NLP.run, Option.some.injEq] at h
    exact h.symm
  | cons c cs ih =>
    intro t t' h
    simp only [TutorialCpp_NLP.run, Option.bind_eq_some] at h
    obtain ⟨t1, h1, h2⟩ := h
    rw [ih t1 t' h2, TutorialCpp_NLP.step_eq cos t t1 c h1]

/-- A loop one of whose iterations fails on every state has no result. -/
theorem Ipopt.forLoop_none {σ : Type} (body : Index → σ → Option σ) (k : Nat) :
    ∀ (i0 : Nat) (s : σ) (j : Nat), i0 ≤ j → j < i0 + k →
      (∀ s, body (j : Int) s = none) → forLoop body k (i0 : Int) s = none := by
  induction k with
  | zero => intro i0 s j h1 h2 _; omega
  | succ k ih =>
    intro i0 s j h1 h2 hj
    simp only [forLoop]
    by_cases h : j = i0
    · subst h
      rw [hj s]; rfl
    · cases hb : body (i0 : Int) s with
      | none => rfl
      | some s1 =>
        have := ih (i0 + 1) s1 j (by omega) (by omega) hj
        simpa using this

/-- The call `eval_g` for `k ≥ 1` constraints on an `x` with fewer than `k+2` entries reads `x`
past its end, whatever the adapter and the output array: it has no result. -/
theorem TutorialCpp_NLP.eval_g_none {α : Type} [Field α] (cos : α → α) (t : TutorialCpp_NLP α)
    (n : Int) (x : List α) (new_x : Bool) (k : Nat) (g : List α) (hk : 0 < k)
    (hx : x.length < k + 2) : t.eval_g cos n x new_x (k : Int) g = none := by
  have hnone : rd x (((x.length - 2 : Nat) : Int) + 2) = none := by
    rw [rd_natCast_add_two, List.getElem?_eq_none (by omega)]
  have hloop := forLoop_none
    (fun j (g : List α) =>
        (rd x (j + 1)).bind fun x1 =>
        (rd t.a_ j).bind fun aj =>
        (rd x (j + 2)).bind fun x2 =>
        (rd x j).bind fun x0 =>
        wr g j ((x1 * x1 + 1.5 * x1 - aj) * cos x2 - x0))
    k 0 g (x.length - 2) (Nat.zero_le _) (by omega)
    (by
      intro s
      simp only [hnone]
      cases rd x (((x.length - 2 : Nat) : Int) + 1) with
      | none => rfl
      | some x1 =>
        cases rd t.a_ ((x.length - 2 : Nat) : Int) with
        | none => rfl
        | some aj => rfl)
  simp only [TutorialCpp_NLP.eval_g, Int.toNat_ofNat]
  have h0 : ((0 : Nat) : Int) = 0 := rfl
  rw [h0] at hloop
  rw [hloop]; rfl

/-- The entry `g[j]` that `eval_g` computes, as a function of the four values it reads. -/
theorem TutorialCpp_NLP.g_entry_eq {α : Type} [Field α] (cos : α → α) (N : Int) (a x : List α)
    (j : Nat) (hN : 3 ≤ N) (ha : (a.length : Int) = N - 2) (hx : (x.length : Int) = N)
    (hj : (j : Int) ≤ N - 3) :
    TutorialCpp_NLP.g_entry cos N a x j
      = (x[j + 1]?).bind fun x1 => (a[j]?).bind fun aj => (x[j + 2]?).bind fun x2 =>
          (x[j]?).map fun x0 => (x1 * x1 + 1.5 * x1 - aj) * cos x2 - x0 := by
  obtain ⟨K, hK⟩ : ∃ K : Nat, N - 2 = (K : Int) := ⟨a.length, ha.symm⟩
  have hKa : a.length = K := by omega
  have htake : a.take (N - 2).toNat = a := by
    rw [hK, Int.toNat_ofNat, ← hKa, List.take_length]
  obtain ⟨g', hcall, -, hlo, -⟩ := TutorialCpp_NLP.eval_g_eq cos
    ({ N_ := N, a_ := a } : TutorialCpp_NLP α) N x true K (List.replicate K 0)
    (by simp [hKa]) (fun _ => by omega) (by simp)
  have hj2 : j + 2 < x.length := by omega
  have hja : j < a.length := by omega
  have hgj := hlo j hj2 hja (by omega)
  simp only [TutorialCpp_NLP.g_entry, TutorialCpp_NLP.ctor_eq N a (by omega) (by omega), htake,
    Option.some_bind]
  rw [hK, Int.toNat_ofNat, hcall, Option.some_bind, hgj,
    List.getElem?_eq_getElem (show j + 1 < x.length by omega), List.getElem?_eq_getElem hja,
    List.getElem?_eq_getElem hj2, List.getElem?_eq_getElem (show j < x.length by omega)]
  rfl

end Lemmas

/-! ## The claims -/

/-- C1, as stated, fails: the adapter constructed with `N = 46342` reports
`nnz_jac_g = -2147479016`, not `N*(N-2) = 2147488280`, which no 32-bit `Index` holds. -/
theorem C1_counterexample :
    ∃ t : TutorialCpp_NLP ℚ,
      TutorialCpp_NLP.ctor 46342 (List.replicate 46340 (0 : ℚ)) = some t ∧
      t.get_nlp_info.n = 46342 ∧ t.get_nlp_info.m = 46342 - 2 ∧
      t.get_nlp_info.nnz_jac_g = -2147479016 ∧
      t.get_nlp_info.nnz_jac_g ≠ 46342 * (46342 - 2) := by
  refine ⟨_, TutorialCpp_NLP.ctor_eq 46342 (List.replicate 46340 (0 : ℚ)) (by decide)
    (by rw [List.length_replicate]; decide), ?_, ?_, ?_, ?_⟩
  · rfl
  · simp only [TutorialCpp_NLP.get_nlp_info, wrap]; decide
  · simp only [TutorialCpp_NLP.get_nlp_info, wrap]; decide
  · simp only [TutorialCpp_NLP.get_nlp_info, wrap]; decide

/-- C1 (amended): for every adapter constructed with `N ≥ 3` and `N*(N-2) ≤ 2147483647` (the
product fits the 32-bit `Index`, that is `N ≤ 46341`), from an array `a` holding the `N-2`
constants the constructor copies, `get_nlp_info` returns `true` and reports the variable count
`n = N`, the constraint count `m = N-2`, the Jacobian nonzero count `nnz_jac_g = N*(N-2)`, the
Hessian nonzero count `nnz_h_lag = N + (N-2)` and the 0-based C-style indexing. -/
theorem C1_get_nlp_info_shape {α : Type} [Field α] (N : Int) (a : List α) (hN : 3 ≤ N)
    (hfit : N * (N - 2) ≤ 2147483647) (ha : N - 2 ≤ a.length) :
    ∃ t : TutorialCpp_NLP α, TutorialCpp_NLP.ctor N a = some t ∧
      t.get_nlp_info = { ret := true, n := N, m := N - 2, nnz_jac_g := N * (N - 2),
                         nnz_h_lag := N + (N - 2), index_style := IndexStyleEnum.C_STYLE } ∧
      t.get_nlp_info.index_style.base = 0 := by
  have hN' : N ≤ 46341 := by
    by_contra h
    have h1 : (46342 : Int) ≤ N := by omega
    nlinarith
  have hprod : 0 ≤ N * (N - 2) := by nlinarith
  refine ⟨_, TutorialCpp_NLP.ctor_eq N a (by omega) ha, ?_, rfl⟩
  simp only [TutorialCpp_NLP.get_nlp_info]
  rw [wrap_eq (N - 2) (by omega) (by omega), wrap_eq (N * (N - 2)) (by omega) hfit,
    wrap_eq (N + (N - 2)) (by omega) (by omega)]

/-- C1 (amended) at `N = 3` with the constant array `[1/2]` over the rationals. -/
theorem C1_get_nlp_info_shape_witness :
    (3 : Int) ≤ 3 ∧ (3 : Int) * (3 - 2) ≤ 2147483647 ∧
    (3 : Int) - 2 ≤ ([1 / 2] : List ℚ).length ∧
    ∃ t : TutorialCpp_NLP ℚ, TutorialCpp_NLP.ctor 3 [1 / 2] = some t ∧
      t.get_nlp_info = { ret := true, n := 3, m := 3 - 2, nnz_jac_g := 3 * (3 - 2),
                         nnz_h_lag := 3 + (3 - 2), index_style := IndexStyleEnum.C_STYLE } ∧
      t.get_nlp_info.index_style.base = 0 :=
  ⟨by decide, by decide, by decide,
    C1_get_nlp_info_shape 3 [1 / 2] (by decide) (by decide) (by decide)⟩

/-- C2: reading `Number` as exact reals, for every `N ≥ 3`, every constant array `a` of length
`N-2` and every `x` of length `N`, `eval_g` on the adapter constructed from `N` and `a`, called
with `n = N` and `m = N-2`, returns `true` and writes
`g[j] = (x[j+1]^2 + 1.5*x[j+1] - a[j]) * cos(x[j+2]) - x[j]` for every `0 ≤ j ≤ N-3`, and writes
exactly these `N-2` entries (every later entry of `g` is as it was). -/
theorem C2_eval_g_values (N : Int) (a x g : List ℝ) (new_x : Bool) (hN : 3 ≤ N)
    (ha : (a.length : Int) = N - 2) (hx : (x.length : Int) = N)
    (hg : N - 2 ≤ (g.length : Int)) :
    ∃ (t : TutorialCpp_NLP ℝ) (g' : List ℝ),
      TutorialCpp_NLP.ctor N a = some t ∧
      t.eval_g Real.cos N x new_x (N - 2) g = some (true, g') ∧
      g'.length = g.length ∧
      (∀ j (_ : j + 2 < x.length) (_ : j < a.length),
        g'[j]? = some ((x[j + 1] ^ 2 + 1.5 * x[j + 1] - a[j]) * Real.cos x[j + 2] - x[j])) ∧
      (∀ j : Nat, N - 2 ≤ (j : Int) → g'[j]? = g[j]?) := by
  obtain ⟨K, hK⟩ : ∃ K : Nat, N - 2 = (K : Int) := ⟨a.length, ha.symm⟩
  have hKa : a.length = K := by omega
  have htake : a.take (N - 2).toNat = a := by
    rw [hK, Int.toNat_ofNat, ← hKa, List.take_length]
  obtain ⟨g', hg', hlen, hlo, hhi⟩ := TutorialCpp_NLP.eval_g_eq Real.cos
    ({ N_ := N, a_ := a } : TutorialCpp_NLP ℝ) N x new_x K g (by simp [hKa])
    (fun _ => by omega) (by omega)
  refine ⟨{ N_ := N, a_ := a }, g', ?_, ?_, hlen, ?_, ?_⟩
  · rw [TutorialCpp_NLP.ctor_eq N a (by omega) (by omega), htake]
  · rw [hK]; exact hg'
  · intro j hj hja
    rw [hlo j hj hja (by omega), pow_two]
  · intro j hj
    exact hhi j (by omega)

/-- C2 at `N = 3`, `a = [1/2]`, `x = [0, 0, 0]` with a two-entry output array. -/
theorem C2_eval_g_values_witness :
    (3 : Int) ≤ 3 ∧ ((([1 / 2] : List ℝ).length : Int) = 3 - 2) ∧
    ((([0, 0, 0] : List ℝ).length : Int) = 3) ∧
    ((3 : Int) - 2 ≤ (([7, 7] : List ℝ).length : Int)) ∧
    ∃ (t : TutorialCpp_NLP ℝ) (g' : List ℝ),
      TutorialCpp_NLP.ctor 3 [1 / 2] = some t ∧
      t.eval_g Real.cos 3 [0, 0, 0] true (3 - 2) [7, 7] = some (true, g') ∧
      g'.length = ([7, 7] : List ℝ).length ∧
      (∀ j (_ : j + 2 < ([0, 0, 0] : List ℝ).length) (_ : j < ([1 / 2] : List ℝ).length),
        g'[j]? = some ((([0, 0, 0] : List ℝ)[j + 1] ^ 2 + 1.5 * ([0, 0, 0] : List ℝ)[j + 1]
            - ([1 / 2] : List ℝ)[j]) * Real.cos ([0, 0, 0] : List ℝ)[j + 2]
          - ([0, 0, 0] : List ℝ)[j])) ∧
      (∀ j : Nat, (3 : Int) - 2 ≤ (j : Int) → g'[j]? = ([7, 7] : List ℝ)[j]?) :=
  ⟨by decide, by decide, by decide, by decide,
    C2_eval_g_values 3 [1 / 2] [0, 0, 0] [7, 7] true (by decide) (by decide) (by decide)
      (by decide)⟩

/-- C3: reading `Number` as exact reals, for every `x` (of length `n`), every coordinate `i < n`
and every `h ≠ 0`, the forward difference quotient `(eval_f(x + h*e_i) - eval_f(x)) / h` equals
`eval_grad_f(x)[i] + h`; hence it is within `|h|` of `eval_grad_f(x)[i]`, and `eval_grad_f(x)[i]`
is the exact partial derivative of `eval_f` in `x_i` at `x`.  Here `F s` is the value `eval_f`
returns on `x` with coordinate `i` replaced by `s`. -/
theorem C3_finite_difference (t : TutorialCpp_NLP ℝ) (x : List ℝ) (new_x : Bool)
    (grad_f : List ℝ) (i : Nat) (hi : i < x.length) (hg : x.length ≤ grad_f.length) :
    ∃ (F : ℝ → ℝ) (g' : List ℝ) (gi : ℝ),
      (∀ s : ℝ, t.eval_f (x.length : Int) (x.set i s) new_x = some (true, F s)) ∧
      t.eval_f (x.length : Int) x new_x = some (true, F x[i]) ∧
      t.eval_grad_f (x.length : Int) x new_x grad_f = some (true, g') ∧
      g'[i]? = some gi ∧
      (∀ h : ℝ, h ≠ 0 → (F (x[i] + h) - F x[i]) / h = gi + h) ∧
      (∀ h : ℝ, h ≠ 0 → |(F (x[i] + h) - F x[i]) / h - gi| ≤ |h|) ∧
      HasDerivAt F gi x[i] := by
  obtain ⟨g', hg', -, hlo, -⟩ :=
    TutorialCpp_NLP.eval_grad_f_eq t x.length x new_x grad_f (le_refl _) hg
  have hquot : ∀ h : ℝ, h ≠ 0 →
      (((x.map fun xi => (xi - 1) * (xi - 1)).sum
            + (-((x[i] - 1) * (x[i] - 1)) + (x[i] + h - 1) * (x[i] + h - 1)))
          - ((x.map fun xi => (xi - 1) * (xi - 1)).sum
            + (-((x[i] - 1) * (x[i] - 1)) + (x[i] - 1) * (x[i] - 1)))) / h
        = 2 * (x[i] - 1) + h := by
    intro h hh
    field_simp
    ring
  refine ⟨fun s => (x.map fun xi => (xi - 1) * (xi - 1)).sum
      + (-((x[i] - 1) * (x[i] - 1)) + (s - 1) * (s - 1)), g', 2 * (x[i] - 1),
    fun s => TutorialCpp_NLP.eval_f_set t x new_x i hi s, ?_, hg', hlo i hi, hquot, ?_, ?_⟩
  · rw [TutorialCpp_NLP.eval_f_eq t x.length x new_x (le_refl _), List.take_length]
    simp
  · intro h hh
    rw [hquot h hh]
    simp
  · have h1 : HasDerivAt (fun s : ℝ => (s - 1) * (s - 1)) (1 * (x[i] - 1) + (x[i] - 1) * 1)
        x[i] :=
      ((hasDerivAt_id x[i]).sub_const 1).mul ((hasDerivAt_id x[i]).sub_const 1)
    have h2 := (h1.const_add (-((x[i] - 1) * (x[i] - 1)))).const_add
      ((x.map fun xi => (xi - 1) * (xi - 1)).sum)
    convert h2 using 1
    ring

/-- C3 at `x = [0, 1/2]`, coordinate `i = 1`. -/
theorem C3_finite_difference_witness :
    (1 : Nat) < ([0, 1 / 2] : List ℝ).length ∧
    ([0, 1 / 2] : List ℝ).length ≤ ([7, 7] : List ℝ).length ∧
    ∃ (F : ℝ → ℝ) (g' : List ℝ) (gi : ℝ),
      (∀ s : ℝ, (⟨4, [1 / 2, 3 / 4]⟩ : TutorialCpp_NLP ℝ).eval_f
          (([0, 1 / 2] : List ℝ).length : Int) (([0, 1 / 2] : List ℝ).set 1 s) true
        = some (true, F s)) ∧
      (⟨4, [1 / 2, 3 / 4]⟩ : TutorialCpp_NLP ℝ).eval_f
          (([0, 1 / 2] : List ℝ).length : Int) [0, 1 / 2] true
        = some (true, F ([0, 1 / 2] : List ℝ)[1]) ∧
      (⟨4, [1 / 2, 3 / 4]⟩ : TutorialCpp_NLP ℝ).eval_grad_f
          (([0, 1 / 2] : List ℝ).length : Int) [0, 1 / 2] true [7, 7] = some (true, g') ∧
      g'[1]? = some gi ∧
      (∀ h : ℝ, h ≠ 0 →
        (F (([0, 1 / 2] : List ℝ)[1] + h) - F ([0, 1 / 2] : List ℝ)[1]) / h = gi + h) ∧
      (∀ h : ℝ, h ≠ 0 →
        |(F (([0, 1 / 2] : List ℝ)[1] + h) - F ([0, 1 / 2] : List ℝ)[1]) / h - gi| ≤ |h|) ∧
      HasDerivAt F gi ([0, 1 / 2] : List ℝ)[1] :=
  ⟨by decide, by decide,
    C3_finite_difference ⟨4, [1 / 2, 3 / 4]⟩ [0, 1 / 2] true [7, 7] 1 (by decide) (by decide)⟩

/-- C5: in the structure phase of `eval_jac_g` the pairs are enumerated row-major: for every
`k` with `0 ≤ k < m*n` (so `n > 0`), `iRow[k] = k / n` and `jCol[k] = k % n`; all `n` columns of
constraint 0 come first, then those of constraint 1, and so on. -/
theorem C5_eval_jac_g_row_major {α : Type} [Field α] (t : TutorialCpp_NLP α) (n m : Nat)
    (x : List α) (new_x : Bool) (nele_jac : Int) (iRow jCol : List Index)
    (hI : m * n ≤ iRow.length) (hJ : m * n ≤ jCol.length) :
    ∃ iRow' jCol' : List Index,
      t.eval_jac_g (n : Int) x new_x (m : Int) nele_jac iRow jCol none
        = some (true, iRow', jCol', none) ∧
      ∀ k : Nat, k < m * n →
        0 < n ∧
        iRow'[k]? = some ((k : Int) / (n : Int)) ∧
        jCol'[k]? = some ((k : Int) % (n : Int)) := by
  obtain ⟨r, c, hcall, -, -, hlo, -⟩ :=
    TutorialCpp_NLP.eval_jac_g_structure t (n : Int) x new_x (m : Int) nele_jac iRow jCol
      (by simpa using hI) (by simpa using hJ)
  simp only [Int.toNat_ofNat] at hlo
  refine ⟨r, c, hcall, fun k hk => ⟨?_, ?_, ?_⟩⟩
  · rcases Nat.eq_zero_or_pos n with h | h
    · subst h; simp at hk
    · exact h
  · rw [(hlo k hk).1, Int.natCast_div]
  · rw [(hlo k hk).2, Int.natCast_mod]

/-- C5 at `n = 2`, `m = 1`. -/
theorem C5_eval_jac_g_row_major_witness :
    1 * 2 ≤ ([9, 9, 9] : List Index).length ∧ 1 * 2 ≤ ([8, 8] : List Index).length ∧
    ∃ iRow' jCol' : List Index,
      (⟨3, [1 / 2]⟩ : TutorialCpp_NLP ℚ).eval_jac_g ((2 : Nat) : Int) [0, 0] true
          ((1 : Nat) : Int) 2 [9, 9, 9] [8, 8] none
        = some (true, iRow', jCol', none) ∧
      ∀ k : Nat, k < 1 * 2 →
        0 < 2 ∧
        iRow'[k]? = some ((k : Int) / ((2 : Nat) : Int)) ∧
        jCol'[k]? = some ((k : Int) % ((2 : Nat) : Int)) :=
  ⟨by decide, by decide,
    C5_eval_jac_g_row_major ⟨3, [1 / 2]⟩ 2 1 [0, 0] true 2 [9, 9, 9] [8, 8] (by decide)
      (by decide)⟩

/-- C6: `eval_jac_g` called in the values phase (`values != NULL`) returns `false`, for every
`n`, `m`, `x`, `nele_jac` and adapter; whenever a call returns, it returns `true` if and only if
it was made in the structure phase; and a structure-phase call on index arrays with room for the
pattern does return `true`. -/
theorem C6_eval_jac_g_values_phase_fails {α : Type} [Field α] (t : TutorialCpp_NLP α)
    (n : Int) (x : List α) (new_x : Bool) (m nele_jac : Int) (iRow jCol : List Index) :
    (∀ values : List α,
      t.eval_jac_g n x new_x m nele_jac iRow jCol (some values)
        = some (false, iRow, jCol, some values)) ∧
    (∀ (values : Option (List α)) (r : Bool × List Index × List Index × Option (List α)),
      t.eval_jac_g n x new_x m nele_jac iRow jCol values = some r →
        (r.1 = true ↔ values = none)) ∧
    (m.toNat * n.toNat ≤ iRow.length → m.toNat * n.toNat ≤ jCol.length →
      ∃ r, t.eval_jac_g n x new_x m nele_jac iRow jCol none = some r ∧ r.1 = true) := by
  refine ⟨fun values => rfl, ?_, ?_⟩
  · intro values r h
    cases values with
    | none =>
      simp only [TutorialCpp_NLP.eval_jac_g, Option.map_eq_some'] at h
      obtain ⟨s, -, rfl⟩ := h
      simp
    | some v =>
      simp only [TutorialCpp_NLP.eval_jac_g, Option.some.injEq] at h
      subst h
      simp
  · intro hI hJ
    obtain ⟨r, c, hcall, -⟩ :=
      TutorialCpp_NLP.eval_jac_g_structure t n x new_x m nele_jac iRow jCol hI hJ
    exact ⟨_, hcall, rfl⟩

/-- C6 at `n = 2`, `m = 1`: the values phase fails and the structure phase succeeds. -/
theorem C6_eval_jac_g_values_phase_fails_witness :
    (⟨3, [1 / 2]⟩ : TutorialCpp_NLP ℚ).eval_jac_g 2 [0, 0] true 1 2 [9, 9] [8, 8] (some [7, 7])
      = some (false, [9, 9], [8, 8], some [7, 7]) ∧
    ∃ r, (⟨3, [1 / 2]⟩ : TutorialCpp_NLP ℚ).eval_jac_g 2 [0, 0] true 1 2 [9, 9] [8, 8] none
      = some r ∧ r.1 = true :=
  ⟨(C6_eval_jac_g_values_phase_fails (⟨3, [1 / 2]⟩ : TutorialCpp_NLP ℚ) 2 [0, 0] true 1 2
      [9, 9] [8, 8]).1 [7, 7],
    (C6_eval_jac_g_values_phase_fails (⟨3, [1 / 2]⟩ : TutorialCpp_NLP ℚ) 2 [0, 0] true 1 2
      [9, 9] [8, 8]).2.2 (by decide) (by decide)⟩

/-- C7: `eval_h` returns `false` for every input: in the structure phase (`values == NULL`) and
in the values phase alike, for every `n`, `m`, `x`, `obj_factor`, `lambda` and `nele_hess`. -/
theorem C7_eval_h_fails {α : Type} [Field α] (t : TutorialCpp_NLP α) (n : Int) (x : List α)
    (new_x : Bool) (obj_factor : α) (m : Int) (lambda : List α) (new_lambda : Bool)
    (nele_hess : Int) (iRow jCol : List Index) (values : Option (List α)) :
    ∃ r, t.eval_h n x new_x obj_factor m lambda new_lambda nele_hess iRow jCol values = some r ∧
      r.1 = false :=
  ⟨_, rfl, rfl⟩

/-- C8: reading `Number` as exact reals, for every `N ≥ 3` and every `x` of length `N`:
if `x` lies in the box `[-1.5, 0]^N` then `eval_f(x) ≥ 0`; `eval_f(x) = 0` if and only if every
`x_i = 1` (in the box or not); and if `x` lies in the box then `eval_f(x) > 0`. -/
theorem C8_eval_f_sign (t : TutorialCpp_NLP ℝ) (N : Int) (x : List ℝ) (new_x : Bool)
    (hN : 3 ≤ N) (hx : (x.length : Int) = N) :
    ∃ f : ℝ, t.eval_f N x new_x = some (true, f) ∧
      ((∀ i (hi : i < x.length), -1.5 ≤ x[i] ∧ x[i] ≤ 0) → 0 ≤ f) ∧
      (f = 0 ↔ ∀ i (hi : i < x.length), x[i] = 1) ∧
      ((∀ i (hi : i < x.length), -1.5 ≤ x[i] ∧ x[i] ≤ 0) → 0 < f) := by
  subst hx
  have hiff : (x.map fun xi => (xi - 1) * (xi - 1)).sum = 0 ↔
      ∀ i (hi : i < x.length), x[i] = 1 := by
    rw [TutorialCpp_NLP.sum_sq_eq_zero_iff]
    constructor
    · intro h i hi
      exact h _ (List.getElem_mem hi)
    · intro h v hv
      obtain ⟨i, hi, rfl⟩ := List.getElem_of_mem hv
      exact h i hi
  refine ⟨_, ?_, fun _ => TutorialCpp_NLP.sum_sq_nonneg x, hiff, ?_⟩
  · rw [TutorialCpp_NLP.eval_f_eq t x.length x new_x (le_refl _), List.take_length]
  · intro hbox
    have h0 : 0 < x.length := by omega
    have hne : (x.map fun xi => (xi - 1) * (xi - 1)).sum ≠ 0 := by
      intro h
      have h1 := (hiff.mp h) 0 h0
      have h2 := (hbox 0 h0).2
      linarith
    exact lt_of_le_of_ne (TutorialCpp_NLP.sum_sq_nonneg x) (Ne.symm hne)

/-- C8 at `N = 3`, `x = [-1/2, -1/2, -1/2]`, a point of the box. -/
theorem C8_eval_f_sign_witness :
    (3 : Int) ≤ 3 ∧ ((([-1 / 2, -1 / 2, -1 / 2] : List ℝ).length : Int) = 3) ∧
    (∀ i (hi : i < ([-1 / 2, -1 / 2, -1 / 2] : List ℝ).length),
        -1.5 ≤ ([-1 / 2, -1 / 2, -1 / 2] : List ℝ)[i] ∧
        ([-1 / 2, -1 / 2, -1 / 2] : List ℝ)[i] ≤ 0) ∧
    ∃ f : ℝ, (⟨3, [1 / 2]⟩ : TutorialCpp_NLP ℝ).eval_f 3 [-1 / 2, -1 / 2, -1 / 2] true
        = some (true, f) ∧ 0 ≤ f ∧
      (f = 0 ↔ ∀ i (hi : i < ([-1 / 2, -1 / 2, -1 / 2] : List ℝ).length),
          ([-1 / 2, -1 / 2, -1 / 2] : List ℝ)[i] = 1) ∧
      0 < f := by
  have hbox : ∀ i (hi : i < ([-1 / 2, -1 / 2, -1 / 2] : List ℝ).length),
      -1.5 ≤ ([-1 / 2, -1 / 2, -1 / 2] : List ℝ)[i] ∧
      ([-1 / 2, -1 / 2, -1 / 2] : List ℝ)[i] ≤ 0 := by
    intro i hi
    have h3 : i = 0 ∨ i = 1 ∨ i = 2 := by
      simp only [List.length_cons, List.length_nil] at hi
      omega
    rcases h3 with rfl | rfl | rfl <;> norm_num
  obtain ⟨f, hf, h1, h2, h3⟩ :=
    C8_eval_f_sign ⟨3, [1 / 2]⟩ 3 [-1 / 2, -1 / 2, -1 / 2] true (by decide) (by decide)
  exact ⟨by decide, by decide, hbox, f, hf, h1 hbox, h2, h3 hbox⟩

/-- C9: reading `Number` as exact reals, for every `x` (of length `n`), `eval_f` returns `true`
and sets `obj_value` to the sum over `i` in `0..n-1` of `(x[i] - 1)^2`; the result depends only on
`x`, not on `new_x` or on the adapter, so repeated calls with the same `x` agree. -/
theorem C9_eval_f_sum (t : TutorialCpp_NLP ℝ) (x : List ℝ) (new_x : Bool) :
    t.eval_f (x.length : Int) x new_x = some (true, ∑ i : Fin x.length, (x[i.1] - 1) ^ 2) ∧
    ∀ (t' : TutorialCpp_NLP ℝ) (new_x' : Bool),
      t'.eval_f (x.length : Int) x new_x' = t.eval_f (x.length : Int) x new_x := by
  have h : ∀ (s : TutorialCpp_NLP ℝ) (b : Bool),
      s.eval_f (x.length : Int) x b = some (true, ∑ i : Fin x.length, (x[i.1] - 1) ^ 2) := by
    intro s b
    rw [TutorialCpp_NLP.eval_f_eq s x.length x b (le_refl _), List.take_length,
      ← Fin.sum_univ_get' x (fun xi => (xi - 1) * (xi - 1))]
    simp only [pow_two]
  exact ⟨h t new_x, fun t' b' => by rw [h t' b', h t new_x]⟩

/-- C10: reading `Number` as exact reals, for every `x` (of length `n`), `eval_grad_f` returns
`true`, writes `grad_f[i] = 2*(x[i] - 1)` for every `0 ≤ i < n` and leaves every other entry of
`grad_f` as it was. -/
theorem C10_eval_grad_f (t : TutorialCpp_NLP ℝ) (x : List ℝ) (new_x : Bool)
    (grad_f : List ℝ) (hg : x.length ≤ grad_f.length) :
    ∃ g' : List ℝ, t.eval_grad_f (x.length : Int) x new_x grad_f = some (true, g') ∧
      g'.length = grad_f.length ∧
      (∀ i (hi : i < x.length), g'[i]? = some (2 * (x[i] - 1))) ∧
      (∀ i, x.length ≤ i → g'[i]? = grad_f[i]?) :=
  TutorialCpp_NLP.eval_grad_f_eq t x.length x new_x grad_f (le_refl _) hg

/-- C10 at `x = [0, 1]` with a three-entry output array. -/
theorem C10_eval_grad_f_witness :
    ([0, 1] : List ℝ).length ≤ ([7, 7, 7] : List ℝ).length ∧
    ∃ g' : List ℝ, (⟨4, [1 / 2, 3 / 4]⟩ : TutorialCpp_NLP ℝ).eval_grad_f
        (([0, 1] : List ℝ).length : Int) [0, 1] true [7, 7, 7] = some (true, g') ∧
      g'.length = ([7, 7, 7] : List ℝ).length ∧
      (∀ i (hi : i < ([0, 1] : List ℝ).length), g'[i]? = some (2 * (([0, 1] : List ℝ)[i] - 1))) ∧
      (∀ i, ([0, 1] : List ℝ).length ≤ i → g'[i]? = ([7, 7, 7] : List ℝ)[i]?) :=
  ⟨by decide, C10_eval_grad_f ⟨4, [1 / 2, 3 / 4]⟩ [0, 1] true [7, 7, 7] (by decide)⟩

/-- C11: for every `n` and `m` (on arrays with room for `n` and `m` entries), `get_bounds_info`
returns `true` and writes `x_l[i] = -1.5` and `x_u[i] = 0` for every `i < n` and
`g_l[j] = g_u[j] = 0` for every `j < m`: the variable bounds are `[-1.5, 0]` repeated `n` times
and the constraint bounds `[0, 0]` repeated `m` times (with `n = N`, `m = N-2`: `N` and `N-2`
times), whatever the adapter and its constants `a`. -/
theorem C11_get_bounds_info {α : Type} [Field α] (t : TutorialCpp_NLP α) (n m : Int)
    (x_l x_u g_l g_u : List α) (hxl : n ≤ (x_l.length : Int)) (hxu : n ≤ (x_u.length : Int))
    (hgl : m ≤ (g_l.length : Int)) (hgu : m ≤ (g_u.length : Int)) :
    ∃ x_l' x_u' g_l' g_u' : List α,
      t.get_bounds_info n x_l x_u m g_l g_u = some (true, x_l', x_u', g_l', g_u') ∧
      (∀ i : Nat, (i : Int) < n → x_l'[i]? = some (-1.5) ∧ x_u'[i]? = some 0) ∧
      (∀ j : Nat, (j : Int) < m → g_l'[j]? = some 0 ∧ g_u'[j]? = some 0) ∧
      (x_l'.take n.toNat = List.replicate n.toNat (-1.5) ∧
        x_u'.take n.toNat = List.replicate n.toNat 0 ∧
        g_l'.take m.toNat = List.replicate m.toNat 0 ∧
        g_u'.take m.toNat = List.replicate m.toNat 0) ∧
      (∀ t' : TutorialCpp_NLP α,
        t'.get_bounds_info n x_l x_u m g_l g_u = t.get_bounds_info n x_l x_u m g_l g_u) := by
  obtain ⟨l, u, gl, gu, hcall, -, hx, hg, -, -⟩ :=
    TutorialCpp_NLP.get_bounds_info_eq t n.toNat m.toNat x_l x_u g_l g_u
      (Int.toNat_le.mpr hxl) (Int.toNat_le.mpr hxu) (Int.toNat_le.mpr hgl) (Int.toNat_le.mpr hgu)
  refine ⟨l, u, gl, gu, ?_, fun i hi => hx i (Int.lt_toNat.mpr hi),
    fun j hj => hg j (Int.lt_toNat.mpr hj),
    ⟨take_eq_replicate _ _ _ fun i hi => (hx i hi).1,
      take_eq_replicate _ _ _ fun i hi => (hx i hi).2,
      take_eq_replicate _ _ _ fun j hj => (hg j hj).1,
      take_eq_replicate _ _ _ fun j hj => (hg j hj).2⟩, fun t' => rfl⟩
  simpa only [TutorialCpp_NLP.get_bounds_info, Int.toNat_ofNat] using hcall

/-- C11 at `n = 4`, `m = 2`, the shape of the adapter with `N = 4`. -/
theorem C11_get_bounds_info_witness :
    (4 : Int) ≤ (([9, 9, 9, 9] : List ℚ).length : Int) ∧
    (4 : Int) ≤ (([8, 8, 8, 8] : List ℚ).length : Int) ∧
    (2 : Int) ≤ (([7, 7] : List ℚ).length : Int) ∧
    (2 : Int) ≤ (([6, 6] : List ℚ).length : Int) ∧
    ∃ x_l' x_u' g_l' g_u' : List ℚ,
      (⟨4, [1 / 2, 3 / 4]⟩ : TutorialCpp_NLP ℚ).get_bounds_info 4 [9, 9, 9, 9] [8, 8, 8, 8] 2
        [7, 7] [6, 6] = some (true, x_l', x_u', g_l', g_u') ∧
      x_l'.take 4 = List.replicate 4 (-1.5) ∧ x_u'.take 4 = List.replicate 4 0 ∧
      g_l'.take 2 = List.replicate 2 0 ∧ g_u'.take 2 = List.replicate 2 0 := by
  obtain ⟨l, u, gl, gu, h, -, -, hrep, -⟩ :=
    C11_get_bounds_info (⟨4, [1 / 2, 3 / 4]⟩ : TutorialCpp_NLP ℚ) 4 2 [9, 9, 9, 9] [8, 8, 8, 8]
      [7, 7] [6, 6] (by decide) (by decide) (by decide) (by decide)
  exact ⟨by decide, by decide, by decide, by decide, l, u, gl, gu, h, hrep⟩

/-- C12: for every `n` (on an array `x` with room for `n` entries), `get_starting_point` called
under its precondition `init_x = true`, `init_z = false`, `init_lambda = false` returns `true`
and writes `x[i] = -0.5` for every `i < n`, leaving `z_L`, `z_U` and `lambda` as they were: the
first `n` entries are the all `-0.5` vector of length `n` (with `n = N`: of length `N`). -/
theorem C12_get_starting_point {α : Type} [Field α] (t : TutorialCpp_NLP α) (n m : Int)
    (x z_L z_U lambda : List α) (hx : n ≤ (x.length : Int)) :
    ∃ x' : List α,
      t.get_starting_point n true x false z_L z_U m false lambda
        = some (true, x', z_L, z_U, lambda) ∧
      x'.length = x.length ∧
      (∀ i : Nat, (i : Int) < n → x'[i]? = some (-0.5)) ∧
      x'.take n.toNat = List.replicate n.toNat (-0.5) := by
  obtain ⟨x', hcall, hlen, h1, -⟩ :=
    TutorialCpp_NLP.get_starting_point_eq t n.toNat x z_L z_U lambda m (Int.toNat_le.mpr hx)
  refine ⟨x', ?_, hlen, fun i hi => h1 i (Int.lt_toNat.mpr hi), take_eq_replicate _ _ _ h1⟩
  simpa only [TutorialCpp_NLP.get_starting_point, Int.toNat_ofNat] using hcall

/-- C12 at `n = 4` with a four-entry array `x`. -/
theorem C12_get_starting_point_witness :
    (4 : Int) ≤ (([9, 9, 9, 9] : List ℚ).length : Int) ∧
    ∃ x' : List ℚ,
      (⟨4, [1 / 2, 3 / 4]⟩ : TutorialCpp_NLP ℚ).get_starting_point 4 true [9, 9, 9, 9] false
        [1] [2] 2 false [3] = some (true, x', [1], [2], [3]) ∧
      x'.take 4 = List.replicate 4 (-0.5) := by
  obtain ⟨x', h, -, -, hrep⟩ :=
    C12_get_starting_point (⟨4, [1 / 2, 3 / 4]⟩ : TutorialCpp_NLP ℚ) 4 2 [9, 9, 9, 9] [1] [2]
      [3] (by decide)
  exact ⟨by decide, x', h, hrep⟩

/-- C13: reading `Number` as exact reals, for an adapter whose first constant is `a[0] = 0.5`,
`eval_g` at `x = [-0.5, -0.5, -0.5, -0.5]` (called for `m = 1` or `m = 2` constraints) gives
`g[0] = ((-0.5)^2 + 1.5*(-0.5) - 0.5)*cos(-0.5) - (-0.5) = 0.5 - cos(0.5)`, and this value is
within `10^-4` of `-0.3776`. -/
theorem C13_eval_g_example (t : TutorialCpp_NLP ℝ) (n : Int) (new_x : Bool) (m : Nat)
    (g : List ℝ) (ha0 : t.a_[0]? = some (0.5 : ℝ)) (hm1 : 1 ≤ m) (hm2 : m ≤ 2)
    (hma : m ≤ t.a_.length) (hg : m ≤ g.length) :
    ∃ g' : List ℝ,
      t.eval_g Real.cos n [-0.5, -0.5, -0.5, -0.5] new_x (m : Int) g = some (true, g') ∧
      g'[0]? = some (((-0.5) ^ 2 + 1.5 * (-0.5) - 0.5) * Real.cos (-0.5) - (-0.5)) ∧
      ((-0.5 : ℝ) ^ 2 + 1.5 * (-0.5) - 0.5) * Real.cos (-0.5) - (-0.5) = 0.5 - Real.cos 0.5 ∧
      |(0.5 - Real.cos 0.5) - (-0.3776)| ≤ 0.0001 := by
  obtain ⟨g', hcall, -, hlo, -⟩ := TutorialCpp_NLP.eval_g_eq Real.cos t n
    [-0.5, -0.5, -0.5, -0.5] new_x m g hma (fun _ => by simp; omega) hg
  have h0 := hlo 0 (by simp) (by omega) (by omega)
  have hpos : 0 < t.a_.length := by omega
  have ha : t.a_[0] = 0.5 := by
    have := List.getElem?_eq_getElem (l := t.a_) (n := 0) (by omega)
    rw [this] at ha0
    exact Option.some.inj ha0
  refine ⟨g', hcall, ?_, ?_, ?_⟩
  · rw [h0, ha]
    simp only [List.getElem_cons_succ, List.getElem_cons_zero, pow_two]
  · rw [Real.cos_neg]; ring
  · have hb := TutorialCpp_NLP.cos_half_bound
    rw [abs_le] at hb ⊢
    rw [show (0.5 : ℝ) = 1 / 2 by norm_num]
    constructor <;> norm_num at hb ⊢ <;> linarith [hb.1, hb.2]

/-- C13 at the adapter with `N = 4` and constants `[0.5, 0.75]`, called with `m = 2`. -/
theorem C13_eval_g_example_witness :
    (⟨4, [0.5, 0.75]⟩ : TutorialCpp_NLP ℝ).a_[0]? = some (0.5 : ℝ) ∧
    ∃ g' : List ℝ,
      (⟨4, [0.5, 0.75]⟩ : TutorialCpp_NLP ℝ).eval_g Real.cos 4 [-0.5, -0.5, -0.5, -0.5] true
        ((2 : Nat) : Int) [7, 7] = some (true, g') ∧
      g'[0]? = some (((-0.5) ^ 2 + 1.5 * (-0.5) - 0.5) * Real.cos (-0.5) - (-0.5)) ∧
      |(0.5 - Real.cos 0.5) - (-0.3776)| ≤ 0.0001 := by
  obtain ⟨g', h1, h2, -, h4⟩ :=
    C13_eval_g_example (⟨4, [0.5, 0.75]⟩ : TutorialCpp_NLP ℝ) 4 true 2 [7, 7] rfl (by decide)
      (by decide) (by decide) (by decide)
  exact ⟨rfl, g', h1, h2, h4⟩

/-- C14: in every state reachable from the constructor call with `N ≥ 3` and constants `a` by
any sequence of callbacks, the adapter stores the size `N` and a constant array of length `N-2`
whose entry `j` is the supplied `a[j]` for every `j < N-2`: construction copies exactly the first
`N-2` constants and no callback changes the adapter's members.  The states are those of
`TutorialCpp_NLP.run`, which steps through the state-passing forms of the callbacks. -/
theorem C14_adapter_state_invariant {α : Type} [Field α] (N : Int) (a : List α) (hN : 3 ≤ N)
    (ha : N - 2 ≤ (a.length : Int)) :
    ∃ t0 : TutorialCpp_NLP α, TutorialCpp_NLP.ctor N a = some t0 ∧
      ∀ (cos : α → α) (calls : List (Callback α)) (t : TutorialCpp_NLP α),
        TutorialCpp_NLP.run cos t0 calls = some t →
          t.N_ = N ∧ (t.a_.length : Int) = N - 2 ∧
          ∀ j : Nat, (j : Int) < N - 2 → t.a_[j]? = a[j]? := by
  refine ⟨_, TutorialCpp_NLP.ctor_eq N a (by omega) ha, ?_⟩
  intro cos calls t h
  rw [TutorialCpp_NLP.run_eq cos calls _ t h]
  obtain ⟨K, hK⟩ : ∃ K : Nat, N - 2 = (K : Int) := ⟨(N - 2).toNat, by omega⟩
  simp only [hK, Int.toNat_ofNat]
  refine ⟨trivial, ?_, ?_⟩
  · rw [List.length_take]; omega
  · intro j hj
    rw [List.getElem?_take, if_pos (by omega)]

/-- C14 at `N = 3`, `a = [1/2]`, after one call of each of the nine callbacks (`eval_jac_g` in
both phases): the calls all return and the adapter still stores `N = 3` and `[1/2]`. -/
theorem C14_adapter_state_invariant_witness :
    (3 : Int) ≤ 3 ∧ (3 : Int) - 2 ≤ (([1 / 2] : List ℚ).length : Int) ∧
    ∃ t0 t : TutorialCpp_NLP ℚ, TutorialCpp_NLP.ctor 3 [1 / 2] = some t0 ∧
      TutorialCpp_NLP.run (fun v => v) t0
          [Callback.get_nlp_info,
           Callback.get_bounds_info 3 [9, 9, 9] [9, 9, 9] 1 [9] [9],
           Callback.get_starting_point 3 true [9, 9, 9] false [] [] 1 false [],
           Callback.eval_f 3 [0, 0, 0] true,
           Callback.eval_grad_f 3 [0, 0, 0] true [9, 9, 9],
           Callback.eval_g 3 [0, 0, 0] true 1 [9],
           Callback.eval_jac_g 3 [0, 0, 0] true 1 3 [9, 9, 9] [9, 9, 9] none,
           Callback.eval_jac_g 3 [0, 0, 0] true 1 3 [9, 9, 9] [9, 9, 9] (some [1, 1, 1]),
           Callback.eval_h 3 [0, 0, 0] true 1 1 [0] true 4 [] [] none,
           Callback.finalize_solution 3 [0, 0, 0] [0, 0, 0] [0, 0, 0] 1 [0] [0] 3]
        = some t ∧
      t.N_ = 3 ∧ (t.a_.length : Int) = 3 - 2 ∧ t.a_[0]? = ([1 / 2] : List ℚ)[0]? := by
  obtain ⟨t0, h0, h⟩ :=
    C14_adapter_state_invariant (3 : Int) ([1 / 2] : List ℚ) (by decide) (by decide)
  have e : t0 = ⟨3, [1 / 2]⟩ := Option.some.inj (h0.symm.trans rfl)
  subst e
  have hrun : TutorialCpp_NLP.run (fun v : ℚ => v) ⟨3, [1 / 2]⟩
      [Callback.get_nlp_info,
       Callback.get_bounds_info 3 [9, 9, 9] [9, 9, 9] 1 [9] [9],
       Callback.get_starting_point 3 true [9, 9, 9] false [] [] 1 false [],
       Callback.eval_f 3 [0, 0, 0] true,
       Callback.eval_grad_f 3 [0, 0, 0] true [9, 9, 9],
       Callback.eval_g 3 [0, 0, 0] true 1 [9],
       Callback.eval_jac_g 3 [0, 0, 0] true 1 3 [9, 9, 9] [9, 9, 9] none,
       Callback.eval_jac_g 3 [0, 0, 0] true 1 3 [9, 9, 9] [9, 9, 9] (some [1, 1, 1]),
       Callback.eval_h 3 [0, 0, 0] true 1 1 [0] true 4 [] [] none,
       Callback.finalize_solution 3 [0, 0, 0] [0, 0, 0] [0, 0, 0] 1 [0] [0] 3]
      = some ⟨3, [1 / 2]⟩ := rfl
  obtain ⟨h1, h2, h3⟩ := h _ _ _ hrun
  exact ⟨by decide, by decide, _, _, h0, hrun, h1, h2, h3 0 (by decide)⟩

/-- C15: each constraint couples exactly three consecutive variables and one constant.  For
every `N ≥ 3` and `j ≤ N-3`: two inputs `(x, a)` and `(x', a')` that agree on `x[j]`, `x[j+1]`,
`x[j+2]` and `a[j]` give the same `g[j]`; and for each of `x[j]`, `x[j+1]`, `x[j+2]`, `a[j]` there
are two inputs that differ only in that entry and give different `g[j]`. -/
theorem C15_eval_g_coupling (N : Int) (j : Nat) (hN : 3 ≤ N) (hj : (j : Int) ≤ N - 3) :
    (∀ a a' x x' : List ℝ, (a.length : Int) = N - 2 → (a'.length : Int) = N - 2 →
      (x.length : Int) = N → (x'.length : Int) = N →
      x[j]? = x'[j]? → x[j + 1]? = x'[j + 1]? → x[j + 2]? = x'[j + 2]? → a[j]? = a'[j]? →
      (TutorialCpp_NLP.g_entry Real.cos N a x j).isSome ∧
      TutorialCpp_NLP.g_entry Real.cos N a x j = TutorialCpp_NLP.g_entry Real.cos N a' x' j) ∧
    (∃ (a x : List ℝ) (v : ℝ), (a.length : Int) = N - 2 ∧ (x.length : Int) = N ∧
      TutorialCpp_NLP.g_entry Real.cos N a x j
        ≠ TutorialCpp_NLP.g_entry Real.cos N a (x.set j v) j) ∧
    (∃ (a x : List ℝ) (v : ℝ), (a.length : Int) = N - 2 ∧ (x.length : Int) = N ∧
      TutorialCpp_NLP.g_entry Real.cos N a x j
        ≠ TutorialCpp_NLP.g_entry Real.cos N a (x.set (j + 1) v) j) ∧
    (∃ (a x : List ℝ) (v : ℝ), (a.length : Int) = N - 2 ∧ (x.length : Int) = N ∧
      TutorialCpp_NLP.g_entry Real.cos N a x j
        ≠ TutorialCpp_NLP.g_entry Real.cos N a (x.set (j + 2) v) j) ∧
    (∃ (a x : List ℝ) (v : ℝ), (a.length : Int) = N - 2 ∧ (x.length : Int) = N ∧
      TutorialCpp_NLP.g_entry Real.cos N a x j
        ≠ TutorialCpp_NLP.g_entry Real.cos N (a.set j v) x j) := by
  obtain ⟨K, hK⟩ : ∃ K : Nat, N = ((K + 2 : Nat) : Int) := ⟨(N - 2).toNat, by omega⟩
  have hjK : j < K := by omega
  have hza : ((List.replicate K (0 : ℝ)).length : Int) = N - 2 := by
    rw [List.length_replicate]; omega
  have hzx : ((List.replicate (K + 2) (0 : ℝ)).length : Int) = N := by
    rw [List.length_replicate]; omega
  refine ⟨?_, ?_, ?_, ?_, ?_⟩
  · intro a a' x x' ha ha' hx hx' h0 h1 h2 h3
    rw [TutorialCpp_NLP.g_entry_eq Real.cos N a x j hN ha hx hj,
      TutorialCpp_NLP.g_entry_eq Real.cos N a' x' j hN ha' hx' hj, h0, h1, h2, h3]
    refine ⟨?_, rfl⟩
    rw [← h0, ← h1, ← h2, ← h3,
      List.getElem?_eq_getElem (show j + 1 < x.length by omega),
      List.getElem?_eq_getElem (show j < a.length by omega),
      List.getElem?_eq_getElem (show j + 2 < x.length by omega),
      List.getElem?_eq_getElem (show j < x.length by omega)]
    rfl
  · refine ⟨List.replicate K 0, List.replicate (K + 2) 0, 1, hza, hzx, ?_⟩
    rw [TutorialCpp_NLP.g_entry_eq Real.cos N _ _ j hN hza hzx hj,
      TutorialCpp_NLP.g_entry_eq Real.cos N _ _ j hN hza (by simpa using hzx) hj]
    simp [List.getElem?_set, List.getElem?_replicate, hjK, show j < K + 2 by omega,
      show j + 1 < K + 2 by omega, show j + 2 < K + 2 by omega]
  · refine ⟨List.replicate K 0, List.replicate (K + 2) 0, 1, hza, hzx, ?_⟩
    rw [TutorialCpp_NLP.g_entry_eq Real.cos N _ _ j hN hza hzx hj,
      TutorialCpp_NLP.g_entry_eq Real.cos N _ _ j hN hza (by simpa using hzx) hj]
    simp [List.getElem?_set, List.getElem?_replicate, hjK, show j < K + 2 by omega,
      show j + 1 < K + 2 by omega, show j + 2 < K + 2 by omega]
    norm_num
  · refine ⟨List.replicate K 0, (List.replicate (K + 2) 0).set (j + 1) 1, Real.pi, hza,
      by simpa using hzx, ?_⟩
    rw [TutorialCpp_NLP.g_entry_eq Real.cos N _ _ j hN hza (by simpa using hzx) hj,
      TutorialCpp_NLP.g_entry_eq Real.cos N _ _ j hN hza (by simpa using hzx) hj]
    simp [List.getElem?_set, List.getElem?_replicate, hjK, show j < K + 2 by omega,
      show j + 1 < K + 2 by omega, show j + 2 < K + 2 by omega]
    norm_num
  · refine ⟨List.replicate K 0, List.replicate (K + 2) 0, 1, hza, hzx, ?_⟩
    rw [TutorialCpp_NLP.g_entry_eq Real.cos N _ _ j hN hza hzx hj,
      TutorialCpp_NLP.g_entry_eq Real.cos N _ _ j hN (by simpa using hza) hzx hj]
    simp [List.getElem?_set, List.getElem?_replicate, hjK, show j < K + 2 by omega,
      show j + 1 < K + 2 by omega, show j + 2 < K + 2 by omega]

/-- C15 at `N = 3`, constraint `j = 0`. -/
theorem C15_eval_g_coupling_witness :
    (3 : Int) ≤ 3 ∧ ((0 : Nat) : Int) ≤ 3 - 3 ∧
    ∃ (a x : List ℝ) (v : ℝ), (a.length : Int) = 3 - 2 ∧ (x.length : Int) = 3 ∧
      TutorialCpp_NLP.g_entry Real.cos 3 a x 0
        ≠ TutorialCpp_NLP.g_entry Real.cos 3 a (x.set 0 v) 0 :=
  ⟨by decide, by decide, (C15_eval_g_coupling 3 0 (by decide) (by decide)).2.1⟩

/-- C16, as stated, fails: with `N = 4` the constructor reads two constants, so it has no result
on `a = [0.5]`; and an adapter constructed with `N = 4` reports `m = 2`, not `1`. -/
theorem C16_counterexample :
    TutorialCpp_NLP.ctor 4 ([0.5] : List ℚ) = none ∧
    ∃ t : TutorialCpp_NLP ℚ, TutorialCpp_NLP.ctor 4 ([0.5, 0.75] : List ℚ) = some t ∧
      t.get_nlp_info.m = 2 ∧ t.get_nlp_info.m ≠ 1 := by
  refine ⟨?_, _, TutorialCpp_NLP.ctor_eq 4 _ (by decide) (by decide), ?_, ?_⟩
  · simp [TutorialCpp_NLP.ctor, forLoop, rd, wr]
  · rfl
  · decide

/-- C16 (amended): for `N = 4` the adapter has `N-2 = 2` constraints: `get_nlp_info` on an
adapter constructed with `N = 4` (from at least two constants) reports `m = 2` and the adapter
stores two constants; the constant array `a = [0.5]` of length 1 supplies one constant per
constraint for `N = 3`, where `get_nlp_info` reports `m = 1`. -/
theorem C16_shape_for_N4 {α : Type} [Field α] (a : List α) (ha : 2 ≤ a.length) :
    (∃ t : TutorialCpp_NLP α, TutorialCpp_NLP.ctor 4 a = some t ∧
      t.get_nlp_info.m = 2 ∧ t.a_.length = 2) ∧
    (∃ t : TutorialCpp_NLP α, TutorialCpp_NLP.ctor 3 [0.5] = some t ∧
      t.get_nlp_info.m = 1 ∧ t.a_ = [0.5]) := by
  refine ⟨⟨_, TutorialCpp_NLP.ctor_eq 4 a (by decide) (by simpa using ha), rfl, ?_⟩,
    ⟨_, TutorialCpp_NLP.ctor_eq 3 ([0.5] : List α) (by decide) (by simp), rfl, rfl⟩⟩
  simp only [show ((4 : Int) - 2).toNat = 2 by decide, List.length_take]
  omega

/-- C16 (amended) at the constant array `[0.5, 0.75]`. -/
theorem C16_shape_for_N4_witness :
    2 ≤ ([0.5, 0.75] : List ℚ).length ∧
    ∃ t : TutorialCpp_NLP ℚ, TutorialCpp_NLP.ctor 4 ([0.5, 0.75] : List ℚ) = some t ∧
      t.get_nlp_info.m = 2 ∧ t.a_.length = 2 :=
  ⟨by decide, (C16_shape_for_N4 ([0.5, 0.75] : List ℚ) (by decide)).1⟩

/-- C17: the 0-based `eval_g` implements the 1-based AMPL model of the file header.  Reading
`Number` as exact reals, for every `n ≥ 3`, if `a[i-2] = i/n` for every `i` in `2..n-1` and
`X[k] = x[k-1]` for every `k` in `1..n`, then for every `i` in `2..n-1` the AMPL constraint body
`(X[i]^2 + 1.5*X[i] - i/n)*cos(X[i+1]) - X[i-1]` is the `g[i-2]` that `eval_g` computes, and
`i ↦ i-2` maps the AMPL index range `2..n-1` bijectively onto `j = 0..n-3`. -/
theorem C17_eval_g_refines_ampl (n : Nat) (a x g : List ℝ) (X : Nat → ℝ) (new_x : Bool)
    (hn : 3 ≤ n) (ha_len : a.length = n - 2) (hx_len : x.length = n) (hg : n - 2 ≤ g.length)
    (ha : ∀ i, 2 ≤ i → i ≤ n - 1 → a[i - 2]? = some ((i : ℝ) / (n : ℝ)))
    (hX : ∀ k, 1 ≤ k → k ≤ n → x[k - 1]? = some (X k)) :
    ∃ (t : TutorialCpp_NLP ℝ) (g' : List ℝ),
      TutorialCpp_NLP.ctor (n : Int) a = some t ∧
      t.eval_g Real.cos (n : Int) x new_x ((n : Int) - 2) g = some (true, g') ∧
      (∀ i, 2 ≤ i → i ≤ n - 1 → g'[i - 2]? = some (ampl_constr Real.cos n X i)) ∧
      Set.BijOn (fun i : Nat => i - 2) {i | 2 ≤ i ∧ i ≤ n - 1} {j | j ≤ n - 3} := by
  have hK : ((n : Int) - 2) = ((n - 2 : Nat) : Int) := by omega
  have htake : a.take ((n : Int) - 2).toNat = a := by
    rw [hK, Int.toNat_ofNat, ← ha_len, List.take_length]
  obtain ⟨g', hcall, -, hlo, -⟩ := TutorialCpp_NLP.eval_g_eq Real.cos
    ({ N_ := (n : Int), a_ := a } : TutorialCpp_NLP ℝ) (n : Int) x new_x (n - 2) g
    (by simp [ha_len]) (fun _ => by omega) hg
  refine ⟨{ N_ := (n : Int), a_ := a }, g', ?_, ?_, ?_, ?_⟩
  · rw [TutorialCpp_NLP.ctor_eq (n : Int) a (by omega) (by omega), htake]
  · rw [hK]; exact hcall
  · intro i h2 hi
    have hj2 : i - 2 + 2 < x.length := by omega
    have hja : i - 2 < a.length := by omega
    rw [hlo (i - 2) hj2 hja (by omega)]
    have e1 : x[i - 2 + 1] = X i := by
      have h := hX i (by omega) (by omega)
      rw [show i - 1 = i - 2 + 1 by omega, List.getElem?_eq_getElem (by omega)] at h
      exact Option.some.inj h
    have e2 : x[i - 2 + 2] = X (i + 1) := by
      have h := hX (i + 1) (by omega) (by omega)
      rw [show i + 1 - 1 = i - 2 + 2 by omega, List.getElem?_eq_getElem (by omega)] at h
      exact Option.some.inj h
    have e0 : x[i - 2] = X (i - 1) := by
      have h := hX (i - 1) (by omega) (by omega)
      rw [show i - 1 - 1 = i - 2 by omega, List.getElem?_eq_getElem (by omega)] at h
      exact Option.some.inj h
    have ea : a[i - 2] = (i : ℝ) / (n : ℝ) := by
      have h := ha i h2 hi
      rw [List.getElem?_eq_getElem (by omega)] at h
      exact Option.some.inj h
    simp only [e1, e2, e0, ea, ampl_constr, pow_two]
  · refine ⟨?_, ?_, ?_⟩
    · intro i hi
      simp only [Set.mem_setOf_eq] at hi ⊢
      omega
    · intro i hi k hk h
      simp only [Set.mem_setOf_eq] at hi hk
      simp only at h
      omega
    · intro j hj
      simp only [Set.mem_setOf_eq] at hj
      exact ⟨j + 2, by simp only [Set.mem_setOf_eq]; omega, by simp⟩

/-- C17 at `n = 3`, `a = [2/3]`, `x = [0, 0, 0]`. -/
theorem C17_eval_g_refines_ampl_witness :
    ∃ (t : TutorialCpp_NLP ℝ) (g' : List ℝ),
      TutorialCpp_NLP.ctor ((3 : Nat) : Int) [2 / 3] = some t ∧
      t.eval_g Real.cos ((3 : Nat) : Int) [0, 0, 0] true (((3 : Nat) : Int) - 2) [7]
        = some (true, g') ∧
      g'[0]? = some (ampl_constr Real.cos 3 (fun _ => 0) 2) := by
  obtain ⟨t, g', h1, h2, h3, -⟩ :=
    C17_eval_g_refines_ampl 3 [2 / 3] [0, 0, 0] [7] (fun _ => 0) true (by decide) (by decide)
      (by decide) (by decide)
      (by
        intro i h2 hi
        have : i = 2 := by omega
        subst this
        norm_num)
      (by
        intro k h1 hk
        have : k = 1 ∨ k = 2 ∨ k = 3 := by omega
        rcases this with rfl | rfl | rfl <;> rfl)
  exact ⟨t, g', h1, h2, h3 2 (by decide) (by decide)⟩

/-- C18: `eval_g` never indexes out of range under the shape the adapter declares.  For every
`N ≥ 3`, with `x` of length `n = N`, stored constants of length `N-2` and `m = N-2`, every read
`x[j]`, `x[j+1]`, `x[j+2]`, `a_[j]` of the loop `j = 0..m-1` is in bounds, the largest index of
`x` read is exactly `n-1`, and the call has a result; with `m = n-1` or larger the loop reads
`x[j+2]` past the end of `x` and the call has no result, whatever the adapter and the output
array. -/
theorem C18_eval_g_in_bounds {α : Type} [Field α] (cos : α → α) (t : TutorialCpp_NLP α)
    (N : Int) (x g : List α) (new_x : Bool) (hN : 3 ≤ N) (hx : (x.length : Int) = N)
    (ha : (t.a_.length : Int) = N - 2) (hg : N - 2 ≤ (g.length : Int)) :
    (∀ j : Nat, (j : Int) < N - 2 →
      (rd x (j : Int)).isSome ∧ (rd x ((j : Int) + 1)).isSome ∧ (rd x ((j : Int) + 2)).isSome ∧
      (rd t.a_ (j : Int)).isSome ∧ (j : Int) + 2 ≤ N - 1) ∧
    (∃ j : Nat, (j : Int) < N - 2 ∧ (j : Int) + 2 = N - 1) ∧
    (∃ g' : List α, t.eval_g cos N x new_x (N - 2) g = some (true, g')) ∧
    (∀ (m : Int) (t' : TutorialCpp_NLP α) (g2 : List α), N - 1 ≤ m →
      (∃ j : Nat, (j : Int) < m ∧ rd x ((j : Int) + 2) = none) ∧
      t'.eval_g cos N x new_x m g2 = none) := by
  obtain ⟨K, hK⟩ : ∃ K : Nat, N - 2 = (K : Int) := ⟨t.a_.length, ha.symm⟩
  refine ⟨?_, ⟨K - 1, by omega, by omega⟩, ?_, ?_⟩
  · intro j hj
    rw [rd_natCast, rd_natCast, rd_natCast_add_one, rd_natCast_add_two,
      List.getElem?_eq_getElem (show j < x.length by omega),
      List.getElem?_eq_getElem (show j + 1 < x.length by omega),
      List.getElem?_eq_getElem (show j + 2 < x.length by omega),
      List.getElem?_eq_getElem (show j < t.a_.length by omega)]
    exact ⟨rfl, rfl, rfl, rfl, by omega⟩
  · obtain ⟨g', hg', -⟩ := TutorialCpp_NLP.eval_g_eq cos t N x new_x K g (by omega)
      (fun _ => by omega) (by omega)
    exact ⟨g', by rw [hK]; exact hg'⟩
  · intro m t' g2 hm
    obtain ⟨M, hM⟩ : ∃ M : Nat, m = (M : Int) := ⟨m.toNat, by omega⟩
    subst hM
    refine ⟨⟨K, by omega, ?_⟩, TutorialCpp_NLP.eval_g_none cos t' N x new_x M g2 (by omega)
      (by omega)⟩
    rw [rd_natCast_add_two, List.getElem?_eq_none (by omega)]

/-- C18 at `N = 3`, `x = [0, 0, 0]`: the call with `m = 1` succeeds, the call with `m = 2`
reads `x[3]`. -/
theorem C18_eval_g_in_bounds_witness :
    (3 : Int) ≤ 3 ∧ ((([0, 0, 0] : List ℚ).length : Int) = 3) ∧
    (∃ g' : List ℚ, (⟨3, [1 / 2]⟩ : TutorialCpp_NLP ℚ).eval_g (fun v => v) 3 [0, 0, 0] true
        (3 - 2) [7] = some (true, g')) ∧
    (⟨3, [1 / 2]⟩ : TutorialCpp_NLP ℚ).eval_g (fun v => v) 3 [0, 0, 0] true 2 [7, 7] = none := by
  obtain ⟨-, -, h3, h4⟩ :=
    C18_eval_g_in_bounds (fun v : ℚ => v) (⟨3, [1 / 2]⟩ : TutorialCpp_NLP ℚ) 3 [0, 0, 0] [7]
      true (by decide) (by decide) (by decide) (by decide)
  exact ⟨by decide, by decide, h3, (h4 2 ⟨3, [1 / 2]⟩ [7, 7] (by decide)).2⟩

/-- C19: the failing calls are atomic: `eval_jac_g` in the values phase, and `eval_h` in either
phase, return `false` and hand back `iRow`, `jCol` and `values` exactly as they were passed
in. -/
theorem C19_failing_calls_atomic {α : Type} [Field α] (t : TutorialCpp_NLP α) (n : Int)
    (x : List α) (new_x : Bool) (m nele : Int) (iRow jCol : List Index) :
    (∀ values : List α,
      t.eval_jac_g n x new_x m nele iRow jCol (some values)
        = some (false, iRow, jCol, some values)) ∧
    (∀ (obj_factor : α) (lambda : List α) (new_lambda : Bool) (values : Option (List α)),
      t.eval_h n x new_x obj_factor m lambda new_lambda nele iRow jCol values
        = some (false, iRow, jCol, values)) :=
  ⟨fun _ => rfl, fun _ _ _ _ => rfl⟩

/-- C20: the data handed to the solver is consistent, reading `Number` as exact reals.  For
every `n`, the bounds written by `get_bounds_info` satisfy `x_l[i] ≤ x_u[i]` and the starting
point written by `get_starting_point` lies strictly inside them, `x_l[i] < x[i] < x_u[i]` (that
is `-1.5 < -0.5 < 0`), for every `i < n`. -/
theorem C20_bounds_start_consistent (t : TutorialCpp_NLP ℝ) (n m : Int)
    (x_l x_u g_l g_u x z_L z_U lambda : List ℝ)
    (hxl : n ≤ (x_l.length : Int)) (hxu : n ≤ (x_u.length : Int))
    (hgl : m ≤ (g_l.length : Int)) (hgu : m ≤ (g_u.length : Int))
    (hx : n ≤ (x.length : Int)) :
    ∃ (x_l' x_u' g_l' g_u' x' : List ℝ),
      t.get_bounds_info n x_l x_u m g_l g_u = some (true, x_l', x_u', g_l', g_u') ∧
      t.get_starting_point n true x false z_L z_U m false lambda
        = some (true, x', z_L, z_U, lambda) ∧
      ∀ i : Nat, (i : Int) < n →
        ∃ lo up s : ℝ, x_l'[i]? = some lo ∧ x_u'[i]? = some up ∧ x'[i]? = some s ∧
          lo ≤ up ∧ lo < s ∧ s < up ∧ lo = -1.5 ∧ s = -0.5 ∧ up = 0 := by
  obtain ⟨l, u, gl, gu, hb, -, hbx, -, -, -⟩ :=
    TutorialCpp_NLP.get_bounds_info_eq t n.toNat m.toNat x_l x_u g_l g_u
      (Int.toNat_le.mpr hxl) (Int.toNat_le.mpr hxu) (Int.toNat_le.mpr hgl) (Int.toNat_le.mpr hgu)
  obtain ⟨x', hs, -, hsx, -⟩ :=
    TutorialCpp_NLP.get_starting_point_eq t n.toNat x z_L z_U lambda m (Int.toNat_le.mpr hx)
  refine ⟨l, u, gl, gu, x', ?_, ?_, ?_⟩
  · simpa only [TutorialCpp_NLP.get_bounds_info, Int.toNat_ofNat] using hb
  · simpa only [TutorialCpp_NLP.get_starting_point, Int.toNat_ofNat] using hs
  · intro i hi
    have hi' : i < n.toNat := Int.lt_toNat.mpr hi
    refine ⟨-1.5, 0, -0.5, (hbx i hi').1, (hbx i hi').2, hsx i hi', ?_, ?_, ?_, rfl, rfl, rfl⟩
      <;> norm_num

/-- C20 at `n = 4`, `m = 2`. -/
theorem C20_bounds_start_consistent_witness :
    (4 : Int) ≤ (([9, 9, 9, 9] : List ℝ).length : Int) ∧
    (4 : Int) ≤ (([8, 8, 8, 8] : List ℝ).length : Int) ∧
    (2 : Int) ≤ (([7, 7] : List ℝ).length : Int) ∧
    (2 : Int) ≤ (([6, 6] : List ℝ).length : Int) ∧
    (4 : Int) ≤ (([5, 5, 5, 5] : List ℝ).length : Int) ∧
    ∃ (x_l' x_u' g_l' g_u' x' : List ℝ),
      (⟨4, [1 / 2, 3 / 4]⟩ : TutorialCpp_NLP ℝ).get_bounds_info 4 [9, 9, 9, 9] [8, 8, 8, 8] 2
        [7, 7] [6, 6] = some (true, x_l', x_u', g_l', g_u') ∧
      (⟨4, [1 / 2, 3 / 4]⟩ : TutorialCpp_NLP ℝ).get_starting_point 4 true [5, 5, 5, 5] false
        [1] [2] 2 false [3] = some (true, x', [1], [2], [3]) ∧
      ∃ lo up s : ℝ, x_l'[0]? = some lo ∧ x_u'[0]? = some up ∧ x'[0]? = some s ∧
        lo ≤ up ∧ lo < s ∧ s < up := by
  obtain ⟨l, u, gl, gu, x', h1, h2, h3⟩ :=
    C20_bounds_start_consistent (⟨4, [1 / 2, 3 / 4]⟩ : TutorialCpp_NLP ℝ) 4 2 [9, 9, 9, 9]
      [8, 8, 8, 8] [7, 7] [6, 6] [5, 5, 5, 5] [1] [2] [3] (by decide) (by decide) (by decide)
      (by decide) (by decide)
  obtain ⟨lo, up, s, a1, a2, a3, a4, a5, a6, -⟩ := h3 0 (by decide)
  exact ⟨by decide, by decide, by decide, by decide, by decide, l, u, gl, gu, x', h1, h2,
    lo, up, s, a1, a2, a3, a4, a5, a6⟩
